import Mathlib

/-!
# Verification of the DevEnvProbe version-check / update engine

Shallow embedding of the version management engine of the repository
(`src/src-tauri/src/version/`): the multi-source version checker
(`checker.rs`), the runtime state with TTL cache and update locks
(`state.rs`), the Docker-Hub tag provider (`docker_hub.rs`), the local git
provider (`git_checker.rs`), and the update orchestrator with rollback
(`updater.rs`, `rollback.rs`).

Conventions of the embedding:
* Rust `String` becomes Lean `String`; machine integers carry no overflow
  in the regions exercised here and become `Nat`.
* Clock reads (`SystemTime::now`, `Instant::now`) become explicit `now`
  parameters (seconds for the state module, following `Duration::from_secs`;
  milliseconds where the code uses milliseconds).
* Network / subprocess calls are the only effects of the providers; each
  call's outcome is an explicit oracle parameter, and the surrounding pure
  logic is translated from the source.
* The in-memory `HashMap`s of `state.rs` become functions
  `String → Option α` (`Table`), mirroring key-value semantics.
* Docker container side effects in the update pipeline are interpreted
  against an explicit world: the set of existing container names, with
  `inspect` / `rename` / `rm -f` / `start` given their container-existence
  semantics; every issued command is recorded in a trace.
-/

namespace DevEnvProbe

/-! ## Data model (src/src-tauri/src/contracts/mod.rs) -/

/-- `VersionSourceKind` from contracts/mod.rs. -/
inductive VersionSourceKind where
  | dockerHub
  | githubRelease
  | localGit
  | customApi
  deriving DecidableEq, Repr

/-- `VersionCandidate` from contracts/mod.rs. -/
structure VersionCandidate where
  source : VersionSourceKind
  version : String
  digest : Option String
  release_notes : Option String
  published_at : Option String
  raw_reference : Option String
  deriving DecidableEq, Repr

/-- `SourceCheckResult` from contracts/mod.rs. -/
structure SourceCheckResult where
  source : VersionSourceKind
  ok : Bool
  error_code : Option String
  error_message : Option String
  latest : Option VersionCandidate
  elapsed_ms : Nat
  deriving DecidableEq, Repr

/-- `DockerHubSourceConfig` from contracts/mod.rs (`namespace` is a Lean
keyword, embedded as `ns`). -/
structure DockerHubSourceConfig where
  ns : String
  repository : String
  include_prerelease : Bool
  tag_regex : Option String
  deriving DecidableEq, Repr

/-- `GithubReleaseSourceConfig` from contracts/mod.rs. -/
structure GithubReleaseSourceConfig where
  owner : String
  repo : String
  include_prerelease : Bool
  token : Option String
  deriving DecidableEq, Repr

/-- `LocalGitSourceConfig` from contracts/mod.rs. -/
structure LocalGitSourceConfig where
  repo_path : String
  branch : String
  version_file : Option String
  deriving DecidableEq, Repr

/-- `HttpHeaderPair` from contracts/mod.rs. -/
structure HttpHeaderPair where
  key : String
  value : String
  deriving DecidableEq, Repr

/-- `CustomApiSourceConfig` from contracts/mod.rs. -/
structure CustomApiSourceConfig where
  endpoint : String
  method : String
  headers : List HttpHeaderPair
  version_field : String
  notes_field : Option String
  published_at_field : Option String
  deriving DecidableEq, Repr

/-- `VersionSourceConfig` tagged union from contracts/mod.rs. -/
inductive VersionSourceConfig where
  | dockerHub (cfg : DockerHubSourceConfig)
  | githubRelease (cfg : GithubReleaseSourceConfig)
  | localGit (cfg : LocalGitSourceConfig)
  | customApi (cfg : CustomApiSourceConfig)
  deriving DecidableEq, Repr

/-- `ImageSelection` from contracts/mod.rs. -/
structure ImageSelection where
  repository : String
  tag : String
  deriving DecidableEq, Repr

/-- `CheckImageVersionRequest` from contracts/mod.rs. -/
structure CheckImageVersionRequest where
  image : ImageSelection
  sources : List VersionSourceConfig
  timeout_ms : Option Nat
  overall_timeout_ms : Option Nat
  deriving DecidableEq, Repr

/-- `CheckImageVersionResponse` from contracts/mod.rs. -/
structure CheckImageVersionResponse where
  image_key : String
  current_version : Option String
  has_update : Bool
  recommended : Option VersionCandidate
  results : List SourceCheckResult
  checked_at_ms : Nat
  deriving DecidableEq, Repr

/-! ## Error taxonomy (src/src-tauri/src/version/errors.rs) -/

/-- `VersionErrorCode` from errors.rs. -/
inductive VersionErrorCode where
  | invalidInput
  | sourceTimeout
  | sourceUnavailable
  | noValidSourceResult
  | updateConflict
  | stepFailed
  | rollbackFailed
  deriving DecidableEq, Repr

/-- `VersionErrorCode::as_str` from errors.rs. -/
def VersionErrorCode.as_str : VersionErrorCode → String
  | .invalidInput => "VERSION_INVALID_INPUT"
  | .sourceTimeout => "VERSION_SOURCE_TIMEOUT"
  | .sourceUnavailable => "VERSION_SOURCE_UNAVAILABLE"
  | .noValidSourceResult => "VERSION_NO_VALID_SOURCE_RESULT"
  | .updateConflict => "VERSION_UPDATE_CONFLICT"
  | .stepFailed => "VERSION_STEP_FAILED"
  | .rollbackFailed => "VERSION_ROLLBACK_FAILED"

/-- `VersionErrorCode::user_message` from errors.rs. -/
def VersionErrorCode.code_user_message : VersionErrorCode → String
  | .invalidInput => "输入参数无效，请检查配置"
  | .sourceTimeout => "版本检查超时，请稍后重试"
  | .sourceUnavailable => "版本源不可用，请检查网络连接"
  | .noValidSourceResult => "所有版本源检查失败，请检查配置"
  | .updateConflict => "该镜像正在更新中，请稍后重试"
  | .stepFailed => "更新步骤执行失败"
  | .rollbackFailed => "回滚失败，请手动恢复"

/-- `VersionError` from errors.rs; payloads are the formatted message strings
(`Io` carries the io error's display text). -/
inductive VersionError where
  | invalidInput (msg : String)
  | sourceTimeout (msg : String)
  | sourceUnavailable (msg : String)
  | noValidSourceResult
  | updateConflict (msg : String)
  | stepFailed (step msg : String)
  | rollbackFailed (msg : String)
  | io (msg : String)
  | http (msg : String)
  | parse (msg : String)
  deriving DecidableEq, Repr

/-- `VersionError::code` from errors.rs. -/
def VersionError.code : VersionError → VersionErrorCode
  | .invalidInput _ => .invalidInput
  | .sourceTimeout _ => .sourceTimeout
  | .sourceUnavailable _ => .sourceUnavailable
  | .noValidSourceResult => .noValidSourceResult
  | .updateConflict _ => .updateConflict
  | .stepFailed _ _ => .stepFailed
  | .rollbackFailed _ => .rollbackFailed
  | .io _ | .http _ | .parse _ => .sourceUnavailable

/-- The `thiserror` display string of a `VersionError` (the `#[error("...")]`
format attributes in errors.rs). -/
def VersionError.display : VersionError → String
  | .invalidInput m => "Invalid input: " ++ m
  | .sourceTimeout m => "Source timeout: " ++ m
  | .sourceUnavailable m => "Source unavailable: " ++ m
  | .noValidSourceResult => "No valid source result"
  | .updateConflict m => "Update conflict: " ++ m
  | .stepFailed step m => "Step failed: " ++ step ++ " - " ++ m
  | .rollbackFailed m => "Rollback failed: " ++ m
  | .io m => "IO error: " ++ m
  | .http m => "HTTP error: " ++ m
  | .parse m => "Parse error: " ++ m

/-- `VersionError::user_message` from errors.rs:
`format!("{}: {}", code.user_message(), self)`. -/
def VersionError.user_message (e : VersionError) : String :=
  e.code.code_user_message ++ ": " ++ e.display

/-! ## Runtime state (src/src-tauri/src/version/state.rs)

`HashMap<String, _>` guarded by a mutex becomes a pure key-value table; the
mutexed accessors become functions of the table (and the current time in
seconds) returning the new table. -/

/-- Key-value map semantics of `HashMap<String, α>`. -/
def Table (α : Type) : Type := String → Option α

/-- The empty table (`HashMap::new`). -/
def Table.empty {α : Type} : Table α := fun _ => none

/-- `HashMap::insert` (replaces any previous value for the key). -/
def Table.insert {α : Type} (t : Table α) (k : String) (v : α) : Table α :=
  fun k' => if k' = k then some v else t k'

/-- `HashMap::remove`. -/
def Table.removeKey {α : Type} (t : Table α) (k : String) : Table α :=
  fun k' => if k' = k then none else t k'

/-- `HashMap::get`. -/
def Table.get {α : Type} (t : Table α) (k : String) : Option α := t k

/-- `VersionCheckCache` from state.rs (`cached_at` in seconds since epoch). -/
structure VersionCheckCache where
  response : CheckImageVersionResponse
  cached_at : Nat
  deriving DecidableEq, Repr

/-- `VersionCheckCache::is_expired` from state.rs.
`SystemTime::duration_since` fails when `cached_at` is in the future, and the
code maps that failure to `true` via `unwrap_or(true)`. -/
def VersionCheckCache.is_expired (e : VersionCheckCache) (now ttl : Nat) : Bool :=
  if e.cached_at ≤ now then decide (now - e.cached_at > ttl) else true

/-- `UpdateLock` from state.rs (`locked_at` in seconds since epoch). -/
structure UpdateLock where
  operation_id : String
  image_key : String
  locked_at : Nat
  deriving DecidableEq, Repr

/-- `UpdateLock::is_expired` from state.rs (same `unwrap_or(true)` treatment
of a future `locked_at`). -/
def UpdateLock.is_expired (l : UpdateLock) (now timeout : Nat) : Bool :=
  if l.locked_at ≤ now then decide (now - l.locked_at > timeout) else true

/-- `VersionRuntimeState::get_cached_check` from state.rs. -/
def get_cached_check (cache : Table VersionCheckCache) (image_key : String)
    (ttl now : Nat) : Option CheckImageVersionResponse :=
  (cache.get image_key).bind fun entry =>
    if entry.is_expired now ttl then none else some entry.response

/-- `VersionRuntimeState::cache_check` from state.rs. -/
def cache_check (cache : Table VersionCheckCache) (image_key : String)
    (response : CheckImageVersionResponse) (now : Nat) : Table VersionCheckCache :=
  cache.insert image_key { response := response, cached_at := now }

/-- The expired-lock sweep at the start of `try_lock_update` (state.rs):
collect the keys of locks expired against a 900 second timeout and remove
them. -/
def sweep_expired (locks : Table UpdateLock) (now : Nat) : Table UpdateLock :=
  fun k =>
    match locks k with
    | some l => if l.is_expired now 900 then none else some l
    | none => none

/-- The conflict message built by `try_lock_update`
(`format!("镜像 {} 正在被操作 {} 更新中", image_key, existing.operation_id)`). -/
def conflict_message (image_key operation_id : String) : String :=
  "镜像 " ++ image_key ++ " 正在被操作 " ++ operation_id ++ " 更新中"

/-- `VersionRuntimeState::try_lock_update` from state.rs: sweep expired locks
(15 minutes = 900 s), refuse if a live lock remains for the key, otherwise
insert a fresh lock. Returns the `Result` together with the new table. -/
def try_lock_update (locks : Table UpdateLock) (image_key operation_id : String)
    (now : Nat) : Except String Unit × Table UpdateLock :=
  match (sweep_expired locks now).get image_key with
  | some existing =>
    if existing.is_expired now 900 = false then
      (.error (conflict_message image_key existing.operation_id), sweep_expired locks now)
    else
      (.ok (), (sweep_expired locks now).insert image_key
        { operation_id := operation_id, image_key := image_key, locked_at := now })
  | none =>
    (.ok (), (sweep_expired locks now).insert image_key
      { operation_id := operation_id, image_key := image_key, locked_at := now })

/-- `VersionRuntimeState::unlock_update` from state.rs. -/
def unlock_update (locks : Table UpdateLock) (image_key : String) : Table UpdateLock :=
  locks.removeKey image_key

/-! ## Version checker (src/src-tauri/src/version/checker.rs) -/

def DEFAULT_SOURCE_TIMEOUT_MS : Nat := 8000

def DEFAULT_OVERALL_TIMEOUT_MS : Nat := 15000

def CHECK_CACHE_TTL_SECONDS : Nat := 30

/-- `build_image_key` from checker.rs. -/
def build_image_key (repository tag : String) : String :=
  repository ++ ":" ++ tag

/-- `source_kind()` of the provider constructed by `create_provider` for a
config (each provider reports its own kind). -/
def VersionSourceConfig.source_kind : VersionSourceConfig → VersionSourceKind
  | .dockerHub _ => .dockerHub
  | .githubRelease _ => .githubRelease
  | .localGit _ => .localGit
  | .customApi _ => .customApi

/-- Outcome of racing one provider's `fetch_latest` against its per-source
timeout in `check_single_source`: the fetch resolved with a candidate,
resolved with an error, or the timeout fired first. -/
inductive FetchOutcome where
  | success (candidate : VersionCandidate)
  | failure (error : VersionError)
  | timedOut
  deriving DecidableEq, Repr

/-- `check_single_source` from checker.rs, as a function of the raced
outcome and the measured elapsed time. -/
def check_single_source (kind : VersionSourceKind) (timeout_ms : Nat)
    (outcome : FetchOutcome) (elapsed_ms : Nat) : SourceCheckResult :=
  match outcome with
  | .success candidate =>
    { source := kind, ok := true, error_code := none, error_message := none,
      latest := some candidate, elapsed_ms := elapsed_ms }
  | .failure err =>
    { source := kind, ok := false, error_code := some err.code.as_str,
      error_message := some err.user_message, latest := none, elapsed_ms := elapsed_ms }
  | .timedOut =>
    { source := kind, ok := false,
      error_code := some VersionErrorCode.sourceTimeout.as_str,
      error_message := some ("Source check timeout after " ++ toString timeout_ms ++ "ms"),
      latest := none, elapsed_ms := elapsed_ms }

/-- The priority array of `select_recommended` in checker.rs. -/
def priority_order : List VersionSourceKind :=
  [.localGit, .githubRelease, .dockerHub, .customApi]

/-- The loop body of `select_recommended`: walk the priority list; for each
kind take the first ok result of that kind; return its candidate if present. -/
def selectFrom (results : List SourceCheckResult) :
    List VersionSourceKind → Option VersionCandidate
  | [] => none
  | kind :: rest =>
    match results.find? (fun r => r.ok && r.source == kind) with
    | some r =>
      match r.latest with
      | some candidate => some candidate
      | none => selectFrom results rest
    | none => selectFrom results rest

/-- `select_recommended` from checker.rs. -/
def select_recommended (results : List SourceCheckResult) : Option VersionCandidate :=
  selectFrom results priority_order

/-- The concurrent fan-out of `check_image_version`: one
`check_single_source` per configured source. `futures::future::join_all`
returns the results in task (= config) order regardless of completion
timing, so the list is indexed by source position; the oracle `outcomes`
names, per position, the raced fetch outcome and the measured elapsed time. -/
def fan_out_results (sources : List VersionSourceConfig) (source_timeout_ms : Nat)
    (outcomes : Nat → FetchOutcome × Nat) : List SourceCheckResult :=
  sources.mapIdx fun i cfg =>
    check_single_source cfg.source_kind source_timeout_ms (outcomes i).1 (outcomes i).2

/-- The `CheckImageVersionResponse` assembled by `check_image_version` from
the fan-out results: recommended candidate by priority, `has_update` as raw
string inequality of the recommended version against the current tag. -/
def checker_response (request : CheckImageVersionRequest) (now_ms : Nat)
    (results : List SourceCheckResult) : CheckImageVersionResponse :=
  { image_key := build_image_key request.image.repository request.image.tag,
    current_version := some request.image.tag,
    has_update :=
      match select_recommended results with
      | some rec => rec.version != request.image.tag
      | none => false,
    recommended := select_recommended results,
    results := results, checked_at_ms := now_ms }

/-- `check_image_version` from checker.rs. Effects made explicit: the cache
table (with `now` in seconds for cache timestamps and `now_ms` for
`checked_at_ms`), whether the overall timeout fired before the batch
finished, and the per-source fetch outcomes. Returns the result together
with the cache table after the call. -/
def check_image_version (request : CheckImageVersionRequest)
    (cache : Table VersionCheckCache) (now now_ms : Nat)
    (overall_timed_out : Bool) (outcomes : Nat → FetchOutcome × Nat) :
    Except VersionError CheckImageVersionResponse × Table VersionCheckCache :=
  match get_cached_check cache (build_image_key request.image.repository request.image.tag)
      CHECK_CACHE_TTL_SECONDS now with
  | some cached => (.ok cached, cache)
  | none =>
    if request.sources.isEmpty then
      (.error (.invalidInput "At least one version source is required"), cache)
    else if overall_timed_out then
      (.error (.sourceTimeout ("Overall version check timeout after " ++
        toString (request.overall_timeout_ms.getD DEFAULT_OVERALL_TIMEOUT_MS) ++ "ms")), cache)
    else if (fan_out_results request.sources (request.timeout_ms.getD DEFAULT_SOURCE_TIMEOUT_MS)
        outcomes).all (fun r => !r.ok) then
      (.error .noValidSourceResult, cache)
    else
      (.ok (checker_response request now_ms
          (fan_out_results request.sources (request.timeout_ms.getD DEFAULT_SOURCE_TIMEOUT_MS)
            outcomes)),
       cache_check cache (build_image_key request.image.repository request.image.tag)
         (checker_response request now_ms
           (fan_out_results request.sources (request.timeout_ms.getD DEFAULT_SOURCE_TIMEOUT_MS)
             outcomes)) now)

/-! ## Docker Hub provider (src/src-tauri/src/version/docker_hub.rs)

The HTTP transport is out of scope; `fetch_latest_from_tags` embeds
everything the provider does once the tag listing body has been parsed.
Regular-expression compilation (`regex::Regex::new`) is modeled by an
abstract `compile` parameter returning the match predicate of a pattern, or
`none` when the pattern does not compile. -/

/-- `DockerHubTag` from docker_hub.rs. -/
structure DockerHubTag where
  name : String
  last_updated : String
  digest : Option String
  deriving DecidableEq, Repr

/-- Lexicographic comparison of char lists by code point. Rust's
`String::cmp` compares UTF-8 bytes lexicographically, which coincides with
code-point order because UTF-8 encoding preserves it. -/
def charListCmp : List Char → List Char → Ordering
  | [], [] => .eq
  | [], _ :: _ => .lt
  | _ :: _, [] => .gt
  | a :: as, b :: bs =>
    if a.val.toNat < b.val.toNat then .lt
    else if b.val.toNat < a.val.toNat then .gt
    else charListCmp as bs

/-- `a.cmp(&b)` on Rust strings. -/
def strCmp (a b : String) : Ordering := charListCmp a.data b.data

/-- Strict "less than" on Rust strings (`Ordering::Less`). -/
def strLt (a b : String) : Bool := strCmp a b == .lt

/-- The filter closure inside `filter_and_sort_tags`: with a configured
regex that compiles, keep exactly the matching tags; with a regex that does
not compile, or no regex at all, keep every tag. -/
def tagPasses (compile : String → Option (String → Bool))
    (cfg : DockerHubSourceConfig) (tag : DockerHubTag) : Bool :=
  match cfg.tag_regex with
  | some pat =>
    match compile pat with
    | some re => re tag.name
    | none => true
  | none => true

/-- One insertion step of a stable descending sort on `last_updated`
(the element being inserted goes after every already-placed tag whose
`last_updated` is not strictly smaller, preserving original order on ties). -/
def insertByLastUpdatedDesc : List DockerHubTag → DockerHubTag → List DockerHubTag
  | [], t => [t]
  | h :: rest, t =>
    if strLt h.last_updated t.last_updated then t :: h :: rest
    else h :: insertByLastUpdatedDesc rest t

/-- `filtered.sort_by(|a, b| b.last_updated.cmp(&a.last_updated))` from
docker_hub.rs: a stable sort, most recent `last_updated` first. -/
def sortByLastUpdatedDesc (tags : List DockerHubTag) : List DockerHubTag :=
  tags.foldl insertByLastUpdatedDesc []

/-- `DockerHubProvider::filter_and_sort_tags` from docker_hub.rs. -/
def filter_and_sort_tags (compile : String → Option (String → Bool))
    (cfg : DockerHubSourceConfig) (tags : List DockerHubTag) : Option DockerHubTag :=
  (sortByLastUpdatedDesc (tags.filter (tagPasses compile cfg))).head?

/-- The tail of `DockerHubProvider::fetch_latest` (docker_hub.rs), from the
parsed tag listing onward: pick the latest surviving tag, fail with `Parse`
when none survives, and build the candidate. -/
def fetch_latest_from_tags (compile : String → Option (String → Bool))
    (cfg : DockerHubSourceConfig) (tags : List DockerHubTag) :
    Except VersionError VersionCandidate :=
  match filter_and_sort_tags compile cfg tags with
  | none => .error (.parse "No matching tags found")
  | some latest_tag =>
    .ok { source := .dockerHub, version := latest_tag.name,
          digest := latest_tag.digest, release_notes := none,
          published_at := some latest_tag.last_updated,
          raw_reference := some (cfg.ns ++ "/" ++ cfg.repository ++ ":" ++ latest_tag.name) }

/-- Split a char list on `.` separators. -/
def splitDots : List Char → List (List Char)
  | [] => [[]]
  | c :: cs =>
    if c = '.' then [] :: splitDots cs
    else
      match splitDots cs with
      | g :: gs => (c :: g) :: gs
      | [] => [[c]]

/-- Nonempty all-digit group. -/
def digitGroup (g : List Char) : Bool :=
  !g.isEmpty && g.all (fun c => c.isDigit)

/-- The match predicate denoted by the concrete regular expression
`^\d+\.\d+\.\d+$`: exactly three nonempty digit groups separated by dots. -/
def matchesSemverPattern (s : String) : Bool :=
  match splitDots s.data with
  | [a, b, c] => digitGroup a && digitGroup b && digitGroup c
  | _ => false

/-- A compilation oracle defined on the single pattern `^\d+\.\d+\.\d+$`
(used to instantiate the abstract `compile` parameter on concrete runs). -/
def semverPatternCompile : String → Option (String → Bool) :=
  fun pat =>
    if pat = "^\\d+\\.\\d+\\.\\d+$" then some matchesSemverPattern else none

/-! ## Local git provider (src/src-tauri/src/version/git_checker.rs)

Subprocess outputs are oracle fields of `GitEnv`; the decision logic of
`fetch_latest` is translated as-is. The byte slice `remote_commit[..8]`
follows Rust string-slice semantics: it panics when the string holds fewer
than 8 bytes (or when byte 8 is not a char boundary); `byteSlicePrefix`
returns `none` exactly in the panicking cases. -/

/-- The outcomes of the external `git` invocations (and file reads) made by
`GitCheckerProvider::fetch_latest`, as observed by the surrounding logic. -/
structure GitEnv where
  /-- `Path::exists` on `repo_path`. -/
  path_exists : Bool
  /-- `Path::exists` on `repo_path/.git`. -/
  git_dir_exists : Bool
  /-- `git fetch --tags --prune origin`. -/
  fetch : Except VersionError Unit
  /-- `git rev-parse HEAD` (trimmed stdout). -/
  head_commit : Except VersionError String
  /-- `git rev-parse origin/{branch}` (trimmed stdout). -/
  remote_commit : Except VersionError String
  /-- Reading the configured version file, when the config names one:
  `ok none` when the file does not exist, `ok (some contents)` otherwise. -/
  version_file_read : Except VersionError (Option String)
  /-- `git tag --sort=-v:refname`: first output line, if any. -/
  latest_tag : Except VersionError (Option String)
  /-- `git rev-list --count local..remote`, parsed. -/
  commits_behind : Except VersionError Nat
  /-- `git log -1 --pretty=format:%s remote`. -/
  commit_message : Except VersionError String

/-- `GitCheckerProvider::read_version_from_file` from git_checker.rs: no
configured version file short-circuits to `Ok(None)` without touching the
filesystem. -/
def read_version_from_file (cfg : LocalGitSourceConfig) (env : GitEnv) :
    Except VersionError (Option String) :=
  match cfg.version_file with
  | none => .ok none
  | some _ => env.version_file_read

/-- Rust byte slice `&s[..n]` on the char list of a string: `none` when `n`
overruns the string's UTF-8 bytes or falls inside a char (the panicking
cases), otherwise the chars making up the first `n` bytes. -/
def byteSlicePrefix : List Char → Nat → Option (List Char)
  | _, 0 => some []
  | [], _ + 1 => none
  | c :: cs, n + 1 =>
    if c.utf8Size ≤ n + 1 then
      (byteSlicePrefix cs (n + 1 - c.utf8Size)).map (fun l => c :: l)
    else none

/-- `&remote_commit[..8]` from git_checker.rs (lines 121 and 140). -/
def slice8 (s : String) : Option String :=
  (byteSlicePrefix s.data 8).map String.mk

/-- Result of one `fetch_latest` call of the local git provider: a panic
(out-of-bounds byte slice), an error return, or a candidate. -/
inductive GitFetchResult where
  | panicked
  | errored (e : VersionError)
  | ok (c : VersionCandidate)
  deriving DecidableEq, Repr

/-- The tail of `GitCheckerProvider::fetch_latest` after the version has
been determined: count commits behind, compose release notes, take the short
hash of the remote commit (line 140), and build the candidate. -/
def git_finish (cfg : LocalGitSourceConfig) (env : GitEnv)
    (remote_commit version : String) : GitFetchResult :=
  match env.commits_behind with
  | .error e => .errored e
  | .ok commits_behind =>
    match slice8 remote_commit with
    | none => .panicked
    | some short_commit =>
      .ok { source := .localGit, version := version, digest := some remote_commit,
            release_notes :=
              if commits_behind > 0 then
                some (toString commits_behind ++ " commits behind. Latest: " ++
                  (env.commit_message.toOption).getD "(no message)")
              else env.commit_message.toOption,
            published_at := none,
            raw_reference := some (cfg.branch ++ "@" ++ short_commit) }

/-- `GitCheckerProvider::fetch_latest` from git_checker.rs: validate the
repository path, fetch, resolve local and remote commits, determine the
version (version file, else latest tag, else 8-byte short hash — line 121),
then finish via `git_finish`. -/
def git_fetch_latest (cfg : LocalGitSourceConfig) (env : GitEnv) : GitFetchResult :=
  if env.path_exists = false then
    .errored (.invalidInput ("Git repository path does not exist: " ++ cfg.repo_path))
  else if env.git_dir_exists = false then
    .errored (.invalidInput ("Not a Git repository: " ++ cfg.repo_path))
  else
    match env.fetch with
    | .error e => .errored e
    | .ok _ =>
      match env.head_commit with
      | .error e => .errored e
      | .ok _local_commit =>
        match env.remote_commit with
        | .error e => .errored e
        | .ok remote_commit =>
          match read_version_from_file cfg env with
          | .error e => .errored e
          | .ok (some file_version) => git_finish cfg env remote_commit file_version
          | .ok none =>
            match env.latest_tag with
            | .error e => .errored e
            | .ok (some tag) => git_finish cfg env remote_commit tag
            | .ok none =>
              match slice8 remote_commit with
              | none => .panicked
              | some short => git_finish cfg env remote_commit short

/-! ## Update pipeline (src/src-tauri/src/version/updater.rs,
rollback.rs)

The pipeline's container-affecting docker commands are interpreted against
a world: the list of existing container names. `docker inspect n` succeeds
iff `n` exists; `docker rename a b` succeeds iff `a` exists and `b` does
not, moving the name; `docker rm -f n` removes `n` (the code ignores its
result); `docker start n` succeeds iff `n` exists and no exogenous start
failure occurs. `git pull` and `docker build` do not touch containers and
their outcomes (exit status and captured streams, or a process-spawn
failure) are oracles, as are the `docker run` outcome and the health-check
verdict. Every issued command is recorded in a trace. Step timing
(`elapsed_ms`) is abstracted to 0 except where the code writes a fixed
value. -/

/-- Contracts: `UpdateWorkflowConfig`. -/
structure UpdateWorkflowConfig where
  git_pull_path : String
  git_branch : String
  build_context : String
  dockerfile : String
  new_image_tag : String
  run_args : List String
  health_check_cmd : Option (List String)
  deriving DecidableEq, Repr

/-- Contracts: `UpdateTimeoutConfig`. -/
structure UpdateTimeoutConfig where
  git_pull_ms : Nat
  docker_build_ms : Nat
  docker_stop_ms : Nat
  docker_run_ms : Nat
  health_check_ms : Nat
  deriving DecidableEq, Repr

/-- Contracts: `UpdateStepLog`. -/
structure UpdateStepLog where
  step : String
  command : Option String
  ok : Bool
  skipped : Bool
  output : String
  error : Option String
  elapsed_ms : Nat
  deriving DecidableEq, Repr

/-- Contracts: `RollbackResult` (`#[derive(Default)]`: all fields zero). -/
structure RollbackResult where
  attempted : Bool
  restored : Bool
  backup_container : Option String
  error : Option String
  deriving DecidableEq, Repr

/-- `RollbackResult::default()`. -/
def rollbackDefault : RollbackResult :=
  { attempted := false, restored := false, backup_container := none, error := none }

/-- The world: names of the containers that currently exist. -/
abbrev World : Type := List String

/-- Does a container with this name exist. -/
def World.has (w : World) (n : String) : Bool := w.contains n

/-- Effect of `docker rm -f n` / of a successful rename's source removal. -/
def World.removeC (w : World) (n : String) : World := w.filter (fun m => m ≠ n)

/-- A new container name coming into existence. -/
def World.addC (w : World) (n : String) : World := n :: w

/-- `docker rename a b`: succeeds iff the source exists and the target name
is free. -/
def renameCmd (w : World) (a b : String) : Bool × World :=
  if w.has a && !w.has b then (true, (w.removeC a).addC b) else (false, w)

/-- Commands the pipeline can issue, for the audit trace. -/
inductive DockerCmd where
  | gitPull
  | dockerBuild
  | inspect (name : String)
  | rename (src dst : String)
  | dockerRun
  | rm (name : String)
  | start (name : String)
  deriving DecidableEq, Repr

/-- Outcome of spawning an external command that does not touch containers:
the spawn itself failed, or the process exited with a status and captured
stdout / stderr. -/
inductive CmdOutcome where
  | spawnErr (msg : String)
  | exit (ok : Bool) (stdout stderr : String)
  deriving DecidableEq, Repr

/-- Outcome of `docker run`: spawn failure, or an exit with status; a failed
run may or may not have created the named container (`created`). A
successful run always creates it. -/
inductive RunOutcome where
  | spawnErr (msg : String)
  | exited (ok : Bool) (created : Bool) (stdout stderr : String)
  deriving DecidableEq, Repr

/-- The oracle outcomes of one pipeline execution. -/
structure UpdateOracle where
  pull : CmdOutcome
  build : CmdOutcome
  /-- spawn failure of `docker inspect` in the backup step, if any. -/
  inspectSpawn : Option String
  /-- spawn failure of `docker rename` in the backup step, if any. -/
  renameSpawn : Option String
  run : RunOutcome
  /-- verdict of `HealthChecker::wait_until_healthy` (`Ok` vs any `Err`). -/
  healthy : Bool
  /-- exogenous failure of `docker start` during rollback (a container that
  exists but does not start). -/
  startFails : Bool
  deriving Repr

/-- `UpdateOrchestrator::extract_container_name` from updater.rs: the token
following the first `--name` that has a successor; otherwise the empty
string. -/
def extract_container_name : List String → String
  | [] => ""
  | [_] => ""
  | a :: b :: rest => if a = "--name" then b else extract_container_name (b :: rest)

/-- `RollbackManager::new`: derived backup container name. -/
def backup_name (container_name operation_id : String) : String :=
  container_name ++ "-backup-" ++ operation_id

/-- `UpdateOrchestrator::git_pull` from updater.rs. -/
def git_pull_step (workflow : UpdateWorkflowConfig) (out : CmdOutcome) :
    Except VersionError UpdateStepLog :=
  let cmdStr := "git -C " ++ workflow.git_pull_path ++ " pull --ff-only origin " ++
    workflow.git_branch
  match out with
  | .spawnErr msg => .error (.stepFailed "git_pull" ("Failed to execute git pull: " ++ msg))
  | .exit ok stdout stderr =>
    let combined := stdout ++ "\n" ++ stderr
    if ok = false then
      .ok { step := "git_pull", command := some cmdStr, ok := false, skipped := false,
            output := combined, error := some combined, elapsed_ms := 0 }
    else
      .ok { step := "git_pull", command := some cmdStr, ok := true, skipped := false,
            output := combined, error := none, elapsed_ms := 0 }

/-- `UpdateOrchestrator::docker_build` from updater.rs. -/
def docker_build_step (workflow : UpdateWorkflowConfig) (out : CmdOutcome) :
    Except VersionError UpdateStepLog :=
  let cmdStr := "docker build -t " ++ workflow.new_image_tag ++ " -f " ++
    workflow.dockerfile ++ " " ++ workflow.build_context
  match out with
  | .spawnErr msg =>
    .error (.stepFailed "docker_build" ("Failed to execute docker build: " ++ msg))
  | .exit ok stdout stderr =>
    let combined := stdout ++ "\n" ++ stderr
    if ok = false then
      .ok { step := "docker_build", command := some cmdStr, ok := false, skipped := false,
            output := combined, error := some combined, elapsed_ms := 0 }
    else
      .ok { step := "docker_build", command := some cmdStr, ok := true, skipped := false,
            output := combined, error := none, elapsed_ms := 0 }

/-- `RollbackManager::backup_container` from rollback.rs: inspect the target
container; if it does not exist, a skipped/ok log; otherwise rename it to
the backup name. Returns the step result, the world after the step, and the
issued commands. -/
def backup_container (container backup : String)
    (inspectSpawn renameSpawn : Option String) (w : World) :
    Except VersionError UpdateStepLog × World × List DockerCmd :=
  match inspectSpawn with
  | some msg =>
    (.ok { step := "backup_container", command := some ("docker inspect " ++ container),
           ok := false, skipped := false, output := "",
           error := some ("Failed to check container: " ++ msg), elapsed_ms := 0 },
     w, [.inspect container])
  | none =>
    if w.has container = false then
      (.ok { step := "backup_container", command := some ("docker inspect " ++ container),
             ok := true, skipped := true,
             output := "Container does not exist, skipping backup", error := none,
             elapsed_ms := 0 },
       w, [.inspect container])
    else
      match renameSpawn with
      | some msg =>
        (.error (.stepFailed "backup_container" ("Failed to backup container: " ++ msg)),
         w, [.inspect container, .rename container backup])
      | none =>
        let cmdStr := "docker rename " ++ container ++ " " ++ backup
        match renameCmd w container backup with
        | (true, w') =>
          (.ok { step := "backup_container", command := some cmdStr, ok := true,
                 skipped := false, output := "\n", error := none, elapsed_ms := 0 },
           w', [.inspect container, .rename container backup])
        | (false, w') =>
          (.ok { step := "backup_container", command := some cmdStr, ok := false,
                 skipped := false, output := "\n", error := some "\n", elapsed_ms := 0 },
           w', [.inspect container, .rename container backup])

/-- `UpdateOrchestrator::docker_run` from updater.rs, with its effect on the
world: a run that exits successfully (or fails after creating the
container) registers the `--name` container. -/
def docker_run_step (workflow : UpdateWorkflowConfig) (out : RunOutcome) (w : World) :
    Except VersionError UpdateStepLog × World × List DockerCmd :=
  let container := extract_container_name workflow.run_args
  let cmdStr := "docker run " ++ String.intercalate " " workflow.run_args ++ " " ++
    workflow.new_image_tag
  match out with
  | .spawnErr msg =>
    (.error (.stepFailed "docker_run" ("Failed to execute docker run: " ++ msg)),
     w, [.dockerRun])
  | .exited ok created stdout stderr =>
    let combined := stdout ++ "\n" ++ stderr
    let w' := if ok || created then w.addC container else w
    if ok = false then
      (.ok { step := "docker_run", command := some cmdStr, ok := false, skipped := false,
             output := combined, error := some combined, elapsed_ms := 0 },
       w', [.dockerRun])
    else
      (.ok { step := "docker_run", command := some cmdStr, ok := true, skipped := false,
             output := combined, error := none, elapsed_ms := 0 },
       w', [.dockerRun])

/-- `RollbackManager::rollback` from rollback.rs: force-remove the failed
new container (result ignored), rename the backup back, and only after a
successful rename issue `docker start`. -/
def rollback (container backup : String) (startFails : Bool) (w : World) :
    RollbackResult × World × List DockerCmd :=
  match renameCmd (w.removeC container) backup container with
  | (true, w2) =>
    if w2.has container && !startFails then
      ({ attempted := true, restored := true, backup_container := some backup,
         error := none }, w2,
       [.rm container, .rename backup container, .start container])
    else
      ({ attempted := true, restored := false, backup_container := some backup,
         error := some "Failed to start restored container" }, w2,
       [.rm container, .rename backup container, .start container])
  | (false, w2) =>
    ({ attempted := true, restored := false, backup_container := some backup,
       error := some "Failed to restore backup container" }, w2,
     [.rm container, .rename backup container])

/-- The health-check success log pushed by `execute` (updater.rs). -/
def health_ok_log (container : String) : UpdateStepLog :=
  { step := "health_check", command := some ("docker inspect " ++ container),
    ok := true, skipped := false, output := "Container is healthy", error := none,
    elapsed_ms := 0 }

/-- The health-check failure log pushed by `execute` (updater.rs). -/
def health_fail_log (container : String) (timeouts : UpdateTimeoutConfig) : UpdateStepLog :=
  { step := "health_check", command := some ("docker inspect " ++ container),
    ok := false, skipped := false, output := "",
    error := some ("Health check failed after " ++ toString (timeouts.health_check_ms / 1000)
      ++ " seconds"),
    elapsed_ms := timeouts.health_check_ms }

/-- Steps 4–6 of `UpdateOrchestrator::execute` (updater.rs): docker run,
health check, and cleanup-or-rollback, continuing from the logs, world and
trace accumulated by steps 1–3. -/
def run_phase (workflow : UpdateWorkflowConfig) (timeouts : UpdateTimeoutConfig)
    (container backup : String) (o : UpdateOracle)
    (logs : List UpdateStepLog) (w : World) (tr : List DockerCmd) :
    Except VersionError (List UpdateStepLog × RollbackResult) × World × List DockerCmd :=
  match docker_run_step workflow o.run w with
  | (.error _e, w4, tr4) =>
    let (rb, w5, tr5) := rollback container backup o.startFails w4
    (.ok (logs, rb), w5, tr ++ tr4 ++ tr5)
  | (.ok log4, w4, tr4) =>
    if log4.ok = false then
      let (rb, w5, tr5) := rollback container backup o.startFails w4
      (.ok (logs ++ [log4], rb), w5, tr ++ tr4 ++ tr5)
    else
      if o.healthy then
        (.ok (logs ++ [log4, health_ok_log container], rollbackDefault),
         w4.removeC backup, tr ++ tr4 ++ [.inspect container, .rm backup])
      else
        let (rb, w5, tr5) := rollback container backup o.startFails w4
        (.ok (logs ++ [log4, health_fail_log container timeouts], rb), w5,
         tr ++ tr4 ++ [.inspect container] ++ tr5)

/-- `UpdateOrchestrator::execute` from updater.rs: the strict step sequence
pull → build → backup → run → health-check → cleanup-or-rollback. Returns
the `Result<(Vec<UpdateStepLog>, RollbackResult)>` together with the final
world and the trace of issued commands. -/
def execute (workflow : UpdateWorkflowConfig) (timeouts : UpdateTimeoutConfig)
    (operation_id : String) (o : UpdateOracle) (w : World) :
    Except VersionError (List UpdateStepLog × RollbackResult) × World × List DockerCmd :=
  let container := extract_container_name workflow.run_args
  let backup := backup_name container operation_id
  match git_pull_step workflow o.pull with
  | .error e => (.error e, w, [.gitPull])
  | .ok log1 =>
    if log1.ok = false then (.ok ([log1], rollbackDefault), w, [.gitPull])
    else
      match docker_build_step workflow o.build with
      | .error e => (.error e, w, [.gitPull, .dockerBuild])
      | .ok log2 =>
        if log2.ok = false then
          (.ok ([log1, log2], rollbackDefault), w, [.gitPull, .dockerBuild])
        else
          match backup_container container backup o.inspectSpawn o.renameSpawn w with
          | (.error e, w3, tr3) => (.error e, w3, [.gitPull, .dockerBuild] ++ tr3)
          | (.ok log3, w3, tr3) =>
            if !log3.ok && !log3.skipped then
              (.ok ([log1, log2, log3], rollbackDefault), w3,
               [.gitPull, .dockerBuild] ++ tr3)
            else
              run_phase workflow timeouts container backup o [log1, log2, log3] w3
                ([.gitPull, .dockerBuild] ++ tr3)

/-- Contracts: `UpdateImageAndRestartResponse.success` as computed in
`update_image_and_restart` (updater.rs): every logged step ok or skipped. -/
def update_success (logs : List UpdateStepLog) : Bool :=
  logs.all fun log => log.ok || log.skipped

/-! ## Helper lemmas -/

theorem Table.get_insert_self {α : Type} (t : Table α) (k : String) (v : α) :
    (t.insert k v).get k = some v := by
  simp [Table.insert, Table.get]

theorem Table.get_insert_ne {α : Type} (t : Table α) (k k' : String) (v : α)
    (h : k' ≠ k) : (t.insert k v).get k' = t.get k' := by
  simp [Table.insert, Table.get, h]

theorem sweep_expired_get {locks : Table UpdateLock} {now : Nat} {k : String} :
    (sweep_expired locks now).get k =
      match locks.get k with
      | some l => if l.is_expired now 900 then none else some l
      | none => none := rfl

theorem sweep_expired_get_some {locks : Table UpdateLock} {now : Nat} {k : String}
    {l : UpdateLock} :
    (sweep_expired locks now).get k = some l ↔
      locks.get k = some l ∧ l.is_expired now 900 = false := by
  rw [sweep_expired_get]
  cases h : locks.get k with
  | none => simp
  | some l' =>
    cases he : l'.is_expired now 900 with
    | true =>
      simp only [he, if_true]
      constructor
      · intro h'; cases h'
      · rintro ⟨h1, h2⟩
        cases h1
        rw [he] at h2
        cases h2
    | false =>
      simp only [he, if_false]
      constructor
      · intro h'; cases h'; exact ⟨rfl, he⟩
      · rintro ⟨h1, _⟩; cases h1; rfl

/-- The conflict branch of `try_lock_update`. -/
theorem try_lock_conflict (locks : Table UpdateLock) (K op : String) (now : Nat)
    (l : UpdateLock) (hl : locks.get K = some l)
    (hlive : l.is_expired now 900 = false) :
    (try_lock_update locks K op now).1 = .error (conflict_message K l.operation_id) ∧
    (try_lock_update locks K op now).2 = sweep_expired locks now := by
  have hs : (sweep_expired locks now).get K = some l :=
    sweep_expired_get_some.mpr ⟨hl, hlive⟩
  unfold try_lock_update
  rw [hs]
  dsimp only
  rw [if_pos hlive]
  exact ⟨rfl, rfl⟩

/-- The acquire branch of `try_lock_update`. -/
theorem try_lock_acquire (locks : Table UpdateLock) (K op : String) (now : Nat)
    (h : ∀ l, locks.get K = some l → l.is_expired now 900 = true) :
    (try_lock_update locks K op now).1 = .ok () ∧
    (try_lock_update locks K op now).2.get K =
      some { operation_id := op, image_key := K, locked_at := now } := by
  unfold try_lock_update
  cases hm : (sweep_expired locks now).get K with
  | some existing =>
    obtain ⟨hK, hne⟩ := sweep_expired_get_some.mp hm
    rw [h existing hK] at hne
    cases hne
  | none =>
    exact ⟨rfl, Table.get_insert_self _ _ _⟩

/-! ## C4 — check-cache TTL semantics -/

/-- C4: a response cached for key `K` at time `T` is returned unchanged by
`get_cached_check` for every request with `now - T ≤ ttl`, and treated as
absent (without the entry being deleted — the lookup is read-only and the
entry is still in the table) once `now - T > ttl`; `cache_check`
unconditionally overwrites any prior entry for `K`. -/
theorem cache_check_roundtrip (cache : Table VersionCheckCache) (K : String)
    (resp : CheckImageVersionResponse) (T ttl now : Nat) (hT : T ≤ now) :
    ((cache_check cache K resp T).get K = some { response := resp, cached_at := T }) ∧
    (now - T ≤ ttl →
      get_cached_check (cache_check cache K resp T) K ttl now = some resp) ∧
    (now - T > ttl →
      get_cached_check (cache_check cache K resp T) K ttl now = none) := by
  refine ⟨Table.get_insert_self _ _ _, ?_, ?_⟩
  · intro h
    simp [get_cached_check, cache_check, Table.insert, Table.get,
      VersionCheckCache.is_expired, hT, Nat.not_lt.mpr h]
  · intro h
    simp [get_cached_check, cache_check, Table.insert, Table.get,
      VersionCheckCache.is_expired, hT, h]

/-- A concrete check response used to instantiate the theorems on closed
inputs. -/
def sampleResponse : CheckImageVersionResponse :=
  { image_key := "nginx:latest", current_version := some "latest",
    has_update := false, recommended := none, results := [], checked_at_ms := 0 }

/-- C4 witness: with the fixed 30 s TTL, a response written at `T = 0` is
returned at `T + 29` and absent at `T + 31`. -/
theorem cache_check_roundtrip_witness :
    get_cached_check (cache_check Table.empty "nginx:latest" sampleResponse 0)
      "nginx:latest" 30 29 = some sampleResponse ∧
    get_cached_check (cache_check Table.empty "nginx:latest" sampleResponse 0)
      "nginx:latest" 30 31 = none :=
  ⟨(cache_check_roundtrip Table.empty "nginx:latest" sampleResponse 0 30 29
      (by decide)).2.1 (by decide),
   (cache_check_roundtrip Table.empty "nginx:latest" sampleResponse 0 30 31
      (by decide)).2.2 (by decide)⟩

/-! ## C3 — update-lock semantics -/

/-- C3: `try_lock_update` first discards every lock older than 15 minutes
(900 s), then fails with the conflict error naming the live lock's
operation id when one remains for the key, and otherwise inserts a lock
owned by the requesting operation; the lock/conflict/unlock/relock scenario
follows. -/
theorem try_lock_update_spec :
    (∀ (locks : Table UpdateLock) (K op : String) (now : Nat),
      (∀ k l, k ≠ K → locks.get k = some l →
        (try_lock_update locks K op now).2.get k =
          if l.is_expired now 900 then none else some l) ∧
      (∀ l, locks.get K = some l → l.is_expired now 900 = false →
        (try_lock_update locks K op now).1 =
          .error (conflict_message K l.operation_id)) ∧
      ((∀ l, locks.get K = some l → l.is_expired now 900 = true) →
        (try_lock_update locks K op now).1 = .ok () ∧
        (try_lock_update locks K op now).2.get K =
          some { operation_id := op, image_key := K, locked_at := now })) ∧
    (∀ (K : String) (now₁ now₂ now₃ : Nat), now₁ ≤ now₂ → now₂ - now₁ ≤ 900 →
      (try_lock_update Table.empty K "op1" now₁).1 = .ok () ∧
      (try_lock_update (try_lock_update Table.empty K "op1" now₁).2
        K "op2" now₂).1 = .error (conflict_message K "op1") ∧
      (try_lock_update
        (unlock_update
          (try_lock_update (try_lock_update Table.empty K "op1" now₁).2
            K "op2" now₂).2 K)
        K "op3" now₃).1 = .ok ()) := by
  constructor
  · intro locks K op now
    refine ⟨?_, ?_, try_lock_acquire locks K op now⟩
    · intro k l hk hl
      have hres : (try_lock_update locks K op now).2.get k =
          (sweep_expired locks now).get k := by
        unfold try_lock_update
        cases hm : (sweep_expired locks now).get K with
        | some existing =>
          dsimp only
          cases he : existing.is_expired now 900 with
          | false => rw [if_pos rfl]
          | true =>
            rw [if_neg (by simp)]
            exact Table.get_insert_ne _ _ _ _ hk
        | none => exact Table.get_insert_ne _ _ _ _ hk
      rw [hres, sweep_expired_get, hl]
    · intro l hl hlive
      exact (try_lock_conflict locks K op now l hl hlive).1
  · intro K now₁ now₂ now₃ h₁ h₂
    have step1 := try_lock_acquire Table.empty K "op1" now₁
      (fun l hl => by cases hl)
    have lock1live : (UpdateLock.mk "op1" K now₁).is_expired now₂ 900 = false := by
      simp [UpdateLock.is_expired, h₁, Nat.not_lt.mpr h₂]
    have step2 := try_lock_conflict (try_lock_update Table.empty K "op1" now₁).2
      K "op2" now₂ _ step1.2 lock1live
    have step3 := try_lock_acquire
      (unlock_update
        (try_lock_update (try_lock_update Table.empty K "op1" now₁).2 K "op2" now₂).2 K)
      K "op3" now₃
      (fun l hl => by
        simp [unlock_update, Table.removeKey, Table.get] at hl)
    exact ⟨step1.1, step2.1, step3.1⟩

/-- C3 witness: the scenario at a concrete key and concrete times. -/
theorem try_lock_update_spec_witness :
    (try_lock_update Table.empty "nginx:latest" "op1" 0).1 = .ok () ∧
    (try_lock_update (try_lock_update Table.empty "nginx:latest" "op1" 0).2
      "nginx:latest" "op2" 10).1 = .error (conflict_message "nginx:latest" "op1") ∧
    (try_lock_update
      (unlock_update
        (try_lock_update (try_lock_update Table.empty "nginx:latest" "op1" 0).2
          "nginx:latest" "op2" 10).2 "nginx:latest")
      "nginx:latest" "op3" 20).1 = .ok () :=
  try_lock_update_spec.2 "nginx:latest" 0 10 20 (by decide) (by decide)

/-! ## C2 — all-sources-failed hard error -/

/-- C2: for a check that misses the cache, has a non-empty source list and
whose batch completes before the overall timeout, `check_image_version`
fails hard with `NoValidSourceResult` and leaves the cache untouched when
every per-source result is not ok, and returns a `CheckResponse` whenever
at least one result is ok. -/
theorem check_image_version_no_valid_source
    (request : CheckImageVersionRequest) (cache : Table VersionCheckCache)
    (now now_ms : Nat) (outcomes : Nat → FetchOutcome × Nat)
    (hmiss : get_cached_check cache
      (build_image_key request.image.repository request.image.tag)
      CHECK_CACHE_TTL_SECONDS now = none)
    (hne : request.sources ≠ []) :
    ((∀ r ∈ fan_out_results request.sources
        (request.timeout_ms.getD DEFAULT_SOURCE_TIMEOUT_MS) outcomes, r.ok = false) →
      check_image_version request cache now now_ms false outcomes =
        (.error .noValidSourceResult, cache)) ∧
    ((∃ r ∈ fan_out_results request.sources
        (request.timeout_ms.getD DEFAULT_SOURCE_TIMEOUT_MS) outcomes, r.ok = true) →
      ∃ resp, (check_image_version request cache now now_ms false outcomes).1 =
        .ok resp) := by
  have hie : request.sources.isEmpty = false := by
    cases hs : request.sources with
    | nil => exact absurd hs hne
    | cons a as => rfl
  constructor
  · intro hall
    have hallb : (fan_out_results request.sources
        (request.timeout_ms.getD DEFAULT_SOURCE_TIMEOUT_MS) outcomes).all
        (fun r => !r.ok) = true := by
      rw [List.all_eq_true]
      intro r hr
      rw [hall r hr]
      rfl
    unfold check_image_version
    rw [hmiss]
    dsimp only
    rw [hie, if_neg (by decide : ¬((false : Bool) = true)),
      if_neg (by decide : ¬((false : Bool) = true)), hallb, if_pos rfl]
  · rintro ⟨r, hr, hok⟩
    have hallb : (fan_out_results request.sources
        (request.timeout_ms.getD DEFAULT_SOURCE_TIMEOUT_MS) outcomes).all
        (fun r => !r.ok) = false := by
      rw [List.all_eq_false]
      exact ⟨r, hr, by rw [hok]; decide⟩
    unfold check_image_version
    rw [hmiss]
    dsimp only
    rw [hie, if_neg (by decide : ¬((false : Bool) = true)),
      if_neg (by decide : ¬((false : Bool) = true)), hallb,
      if_neg (by decide : ¬((false : Bool) = true))]
    exact ⟨_, rfl⟩

/-- A concrete single-source request whose only source fails. -/
def sampleDockerHubConfig : DockerHubSourceConfig :=
  { ns := "library", repository := "nginx", include_prerelease := false,
    tag_regex := none }

def sampleRequest : CheckImageVersionRequest :=
  { image := { repository := "nginx", tag := "latest" },
    sources := [.dockerHub sampleDockerHubConfig],
    timeout_ms := none, overall_timeout_ms := none }

/-- A concrete candidate used on closed inputs. -/
def sampleCandidate : VersionCandidate :=
  { source := .dockerHub, version := "1.22.0", digest := none,
    release_notes := none, published_at := none, raw_reference := none }

/-- C2 witness: the concrete request against an empty cache, with the one
source failing, returns `NoValidSourceResult`; with the one source
succeeding, it returns a response. -/
theorem check_image_version_no_valid_source_witness :
    (check_image_version sampleRequest Table.empty 0 0 false
      (fun _ => (.failure (.http "connect error"), 5)) =
      (.error .noValidSourceResult, Table.empty)) ∧
    (∃ resp, (check_image_version sampleRequest Table.empty 0 0 false
      (fun _ => (.success sampleCandidate, 5))).1 = .ok resp) :=
  ⟨(check_image_version_no_valid_source sampleRequest Table.empty 0 0
      (fun _ => (.failure (.http "connect error"), 5)) rfl (by decide)).1
      (by decide),
   (check_image_version_no_valid_source sampleRequest Table.empty 0 0
      (fun _ => (.success sampleCandidate, 5)) rfl (by decide)).2
      ⟨check_single_source VersionSourceKind.dockerHub 8000
        (.success sampleCandidate) 5, by constructor
                                         · decide
                                         · decide⟩⟩

/-! ## C5 — `has_update` as raw string inequality -/

/-- C5: a response computed by `check_image_version` (cache miss path) has
`has_update = true` exactly when a recommended candidate exists whose
version string differs from the request's current tag; with no
recommendation, `has_update` is false. -/
theorem check_image_version_has_update
    (request : CheckImageVersionRequest) (cache : Table VersionCheckCache)
    (now now_ms : Nat) (overall_timed_out : Bool) (outcomes : Nat → FetchOutcome × Nat)
    (resp : CheckImageVersionResponse)
    (hmiss : get_cached_check cache
      (build_image_key request.image.repository request.image.tag)
      CHECK_CACHE_TTL_SECONDS now = none)
    (h : (check_image_version request cache now now_ms overall_timed_out outcomes).1 =
      .ok resp) :
    (resp.has_update = true ↔
      ∃ rec, resp.recommended = some rec ∧ rec.version ≠ request.image.tag) ∧
    (resp.recommended = none → resp.has_update = false) := by
  unfold check_image_version at h
  rw [hmiss] at h
  dsimp only at h
  by_cases hie : request.sources.isEmpty = true
  · rw [if_pos hie] at h
    cases h
  · rw [if_neg hie] at h
    cases hto : overall_timed_out with
    | true =>
      rw [hto, if_pos rfl] at h
      cases h
    | false =>
      rw [hto, if_neg (by decide : ¬((false : Bool) = true))] at h
      cases hall : (fan_out_results request.sources
          (request.timeout_ms.getD DEFAULT_SOURCE_TIMEOUT_MS) outcomes).all
          (fun r => !r.ok) with
      | true =>
        rw [hall, if_pos rfl] at h
        cases h
      | false =>
        rw [hall, if_neg (by decide : ¬((false : Bool) = true))] at h
        injection h with h
        subst h
        dsimp only [checker_response]
        cases hsel : select_recommended (fan_out_results request.sources
            (request.timeout_ms.getD DEFAULT_SOURCE_TIMEOUT_MS) outcomes) with
        | none =>
          dsimp only
          constructor
          · constructor
            · intro hu
              cases hu
            · rintro ⟨rec, hrec, _⟩
              cases hrec
          · intro _
            rfl
        | some rec =>
          dsimp only
          constructor
          · constructor
            · intro hu
              exact ⟨rec, rfl, bne_iff_ne.mp hu⟩
            · rintro ⟨rec', hrec, hne'⟩
              injection hrec with hrec
              subst hrec
              exact bne_iff_ne.mpr hne'
          · intro hnone
            cases hnone

/-- C5 witness: a concrete cache-missing check whose one source reports
version `1.22.0` against current tag `latest` computes `has_update = true`. -/
theorem check_image_version_has_update_witness :
    (checker_response sampleRequest 0 (fan_out_results sampleRequest.sources 8000
      (fun _ => (.success sampleCandidate, 5)))).has_update = true :=
  ((check_image_version_has_update sampleRequest Table.empty 0 0 false
      (fun _ => (.success sampleCandidate, 5))
      (checker_response sampleRequest 0 (fan_out_results sampleRequest.sources 8000
        (fun _ => (.success sampleCandidate, 5))))
      rfl rfl).1).mpr ⟨sampleCandidate, by decide, by decide⟩

/-! ## C1 — priority-based recommendation -/

/-- The rank of a source kind in the priority array of `select_recommended`
(checker.rs line 80): LocalGit, GithubRelease, DockerHub, CustomApi. -/
def priority : VersionSourceKind → Nat
  | .localGit => 0
  | .githubRelease => 1
  | .dockerHub => 2
  | .customApi => 3

theorem mem_priority_order (k : VersionSourceKind) : k ∈ priority_order := by
  cases k <;> decide

theorem indexOf_priority_order (k : VersionSourceKind) :
    priority_order.indexOf k = priority k := by
  cases k <;> rfl

theorem selectFrom_eq_none_of_all_fail (results : List SourceCheckResult)
    (kinds : List VersionSourceKind) (hall : ∀ r ∈ results, r.ok = false) :
    selectFrom results kinds = none := by
  induction kinds with
  | nil => rfl
  | cons k rest ih =>
    have hf : results.find? (fun r => r.ok && r.source == k) = none := by
      rw [List.find?_eq_none]
      intro r hr
      simp [hall r hr]
    simp [selectFrom, hf, ih]

/-- Characterization of the `select_recommended` loop over an arbitrary
priority list: it yields `c` exactly when some ok result carries `c` and no
ok result has a kind of strictly earlier rank. -/
theorem selectFrom_eq_some_iff (results : List SourceCheckResult)
    (hol : ∀ r ∈ results, r.ok = true → r.latest.isSome = true)
    (huniq : ∀ r ∈ results, ∀ r' ∈ results, r.source = r'.source → r = r')
    (kinds : List VersionSourceKind) (c : VersionCandidate) :
    selectFrom results kinds = some c ↔
      ∃ r ∈ results, r.ok = true ∧ r.latest = some c ∧ r.source ∈ kinds ∧
        ∀ r' ∈ results, r'.ok = true → r'.source ∈ kinds →
          kinds.indexOf r.source ≤ kinds.indexOf r'.source := by
  induction kinds with
  | nil => simp [selectFrom]
  | cons k rest ih =>
    cases hf : results.find? (fun r => r.ok && r.source == k) with
    | some r₀ =>
      have hr₀mem := List.mem_of_find?_eq_some hf
      have hr₀p := List.find?_some hf
      rw [Bool.and_eq_true] at hr₀p
      have hok₀ : r₀.ok = true := hr₀p.1
      have hsrc₀ : r₀.source = k := by
        have := hr₀p.2
        rwa [beq_iff_eq] at this
      obtain ⟨c₀, hc₀⟩ := Option.isSome_iff_exists.mp (hol r₀ hr₀mem hok₀)
      rw [show selectFrom results (k :: rest) =
        (match results.find? (fun r => r.ok && r.source == k) with
          | some r =>
            match r.latest with
            | some candidate => some candidate
            | none => selectFrom results rest
          | none => selectFrom results rest) from rfl]
      rw [hf]
      dsimp only
      rw [hc₀]
      constructor
      · intro h'
        injection h' with h'
        subst h'
        refine ⟨r₀, hr₀mem, hok₀, hc₀, by rw [hsrc₀]; exact List.mem_cons_self _ _, ?_⟩
        intro r' _ _ _
        rw [hsrc₀, List.indexOf_cons_self]
        exact Nat.zero_le _
      · rintro ⟨r, hrmem, hrok, hrlat, _, hmin⟩
        have h0 : (k :: rest).indexOf r.source ≤ 0 := by
          have := hmin r₀ hr₀mem hok₀ (by rw [hsrc₀]; exact List.mem_cons_self _ _)
          rwa [hsrc₀, List.indexOf_cons_self] at this
        have hsk : r.source = k := by
          by_contra hne
          rw [List.indexOf_cons_ne _ (fun h => hne h.symm)] at h0
          exact Nat.not_succ_le_zero _ h0
        have hrr₀ : r = r₀ := huniq r hrmem r₀ hr₀mem (by rw [hsk, hsrc₀])
        subst hrr₀
        rw [hrlat] at hc₀
        injection hc₀ with hc₀
        rw [hc₀]
    | none =>
      have hnone := List.find?_eq_none.mp hf
      have hnk : ∀ r ∈ results, r.ok = true → r.source ≠ k := by
        intro r hr hok heq
        exact hnone r hr (by simp [hok, heq])
      rw [show selectFrom results (k :: rest) =
        (match results.find? (fun r => r.ok && r.source == k) with
          | some r =>
            match r.latest with
            | some candidate => some candidate
            | none => selectFrom results rest
          | none => selectFrom results rest) from rfl]
      rw [hf]
      dsimp only
      rw [ih]
      constructor
      · rintro ⟨r, hrmem, hok, hlat, hsrc, hmin⟩
        refine ⟨r, hrmem, hok, hlat, List.mem_cons_of_mem _ hsrc, ?_⟩
        intro r' hr' hok' hsrc'
        have hr'nk := hnk r' hr' hok'
        have hrnk := hnk r hrmem hok
        have hsrc'' : r'.source ∈ rest := by
          rcases List.mem_cons.mp hsrc' with h | h
          · exact absurd h hr'nk
          · exact h
        rw [List.indexOf_cons_ne _ (fun h => hrnk h.symm),
          List.indexOf_cons_ne _ (fun h => hr'nk h.symm)]
        exact Nat.succ_le_succ (hmin r' hr' hok' hsrc'')
      · rintro ⟨r, hrmem, hok, hlat, hsrc, hmin⟩
        have hrnk := hnk r hrmem hok
        have hsrcrest : r.source ∈ rest := by
          rcases List.mem_cons.mp hsrc with h | h
          · exact absurd h hrnk
          · exact h
        refine ⟨r, hrmem, hok, hlat, hsrcrest, ?_⟩
        intro r' hr' hok' hsrc'
        have := hmin r' hr' hok' (List.mem_cons_of_mem _ hsrc')
        rw [List.indexOf_cons_ne _ (fun h => hrnk h.symm),
          List.indexOf_cons_ne _ (fun h => (hnk r' hr' hok') h.symm)] at this
        exact Nat.le_of_succ_le_succ this

theorem exists_min_nat_image {α : Type} (f : α → Nat) :
    ∀ (l : List α), l ≠ [] → ∃ a ∈ l, ∀ b ∈ l, f a ≤ f b := by
  intro l
  induction l with
  | nil => intro h; exact absurd rfl h
  | cons x xs ih =>
    intro _
    by_cases hxs : xs = []
    · subst hxs
      refine ⟨x, List.mem_cons_self _ _, ?_⟩
      intro b hb
      rcases List.mem_cons.mp hb with rfl | hb
      · exact Nat.le_refl _
      · cases hb
    · obtain ⟨a, ha, hmin⟩ := ih hxs
      by_cases hfa : f x ≤ f a
      · refine ⟨x, List.mem_cons_self _ _, ?_⟩
        intro b hb
        rcases List.mem_cons.mp hb with rfl | hb
        · exact Nat.le_refl _
        · exact Nat.le_trans hfa (hmin b hb)
      · refine ⟨a, List.mem_cons_of_mem _ ha, ?_⟩
        intro b hb
        rcases List.mem_cons.mp hb with rfl | hb
        · exact Nat.le_of_lt (Nat.lt_of_not_le hfa)
        · exact hmin b hb

/-- `select_recommended` characterization over the concrete priority list. -/
theorem select_recommended_char (results : List SourceCheckResult)
    (hol : ∀ r ∈ results, r.ok = true → r.latest.isSome = true)
    (huniq : ∀ r ∈ results, ∀ r' ∈ results, r.source = r'.source → r = r')
    (c : VersionCandidate) :
    select_recommended results = some c ↔
      ∃ r ∈ results, r.ok = true ∧ r.latest = some c ∧
        ∀ r' ∈ results, r'.ok = true → priority r.source ≤ priority r'.source := by
  rw [select_recommended, selectFrom_eq_some_iff results hol huniq priority_order c]
  constructor
  · rintro ⟨r, hr, hok, hlat, _, hmin⟩
    refine ⟨r, hr, hok, hlat, ?_⟩
    intro r' hr' hok'
    have := hmin r' hr' hok' (mem_priority_order _)
    rwa [indexOf_priority_order, indexOf_priority_order] at this
  · rintro ⟨r, hr, hok, hlat, hmin⟩
    refine ⟨r, hr, hok, hlat, mem_priority_order _, ?_⟩
    intro r' hr' hok' _
    rw [indexOf_priority_order, indexOf_priority_order]
    exact hmin r' hr' hok'

/-- C1: under the invariants that ok results carry a candidate and that
sources are pairwise distinct, `select_recommended` returns exactly the
candidate of the ok result whose kind ranks first in the fixed priority
order LocalGit, GithubRelease, DockerHub, CustomApi; it returns nothing
exactly when no result is ok; and its value is invariant under permutation
of the result list (order of arrival / completion). -/
theorem select_recommended_priority (results : List SourceCheckResult)
    (hol : ∀ r ∈ results, r.ok = true → r.latest.isSome = true)
    (hnd : (results.map (fun r => r.source)).Nodup) :
    (∀ c, select_recommended results = some c ↔
      ∃ r ∈ results, r.ok = true ∧ r.latest = some c ∧
        ∀ r' ∈ results, r'.ok = true → priority r.source ≤ priority r'.source) ∧
    (select_recommended results = none ↔ ∀ r ∈ results, r.ok = false) ∧
    (∀ results' : List SourceCheckResult, results.Perm results' →
      select_recommended results' = select_recommended results) := by
  have huniq : ∀ r ∈ results, ∀ r' ∈ results, r.source = r'.source → r = r' :=
    fun r hr r' hr' h => List.inj_on_of_nodup_map hnd hr hr' h
  have hchar := select_recommended_char results hol huniq
  have hnonec : select_recommended results = none ↔ ∀ r ∈ results, r.ok = false := by
    constructor
    · intro hnone
      by_contra hex
      push_neg at hex
      obtain ⟨r, hr, hok⟩ := hex
      have hok' : r.ok = true := by
        cases hb : r.ok
        · exact absurd hb hok
        · rfl
      have hlne : results.filter (fun r => r.ok) ≠ [] :=
        List.ne_nil_of_mem (List.mem_filter.mpr ⟨hr, hok'⟩)
      obtain ⟨a, hal, hmin⟩ :=
        exists_min_nat_image (fun r => priority r.source) _ hlne
      have hamem : a ∈ results := (List.mem_filter.mp hal).1
      have haok : a.ok = true := (List.mem_filter.mp hal).2
      obtain ⟨c₀, hc₀⟩ := Option.isSome_iff_exists.mp (hol a hamem haok)
      have : select_recommended results = some c₀ :=
        (hchar c₀).mpr ⟨a, hamem, haok, hc₀, fun r' hr' hok' =>
          hmin r' (List.mem_filter.mpr ⟨hr', hok'⟩)⟩
      rw [this] at hnone
      cases hnone
    · exact fun hall => selectFrom_eq_none_of_all_fail results priority_order hall
  refine ⟨hchar, hnonec, ?_⟩
  intro results' hperm
  have hol' : ∀ r ∈ results', r.ok = true → r.latest.isSome = true :=
    fun r hr => hol r (hperm.mem_iff.mpr hr)
  have hnd' : (results'.map (fun r => r.source)).Nodup :=
    ((hperm.map (fun r => r.source)).nodup_iff).mp hnd
  have huniq' : ∀ r ∈ results', ∀ r' ∈ results', r.source = r'.source → r = r' :=
    fun r hr r' hr' h => List.inj_on_of_nodup_map hnd' hr hr' h
  have hchar' := select_recommended_char results' hol' huniq'
  cases hsel : select_recommended results with
  | some c =>
    obtain ⟨r, hr, hok, hlat, hmin⟩ := (hchar c).mp hsel
    exact (hchar' c).mpr ⟨r, hperm.mem_iff.mp hr, hok, hlat,
      fun r' hr' hok' => hmin r' (hperm.mem_iff.mpr hr') hok'⟩
  | none =>
    have hall := hnonec.mp hsel
    exact selectFrom_eq_none_of_all_fail results' priority_order
      (fun r hr => hall r (hperm.mem_iff.mpr hr))

/-- The spec's example inputs: an ok RegistryTags result at `1.0.0` and an
ok LocalRepository result at `1.1.0`. -/
@[reducible] def exampleLocalGitCandidate : VersionCandidate :=
  { source := .localGit, version := "1.1.0", digest := none,
    release_notes := none, published_at := none, raw_reference := none }

@[reducible] def exampleDockerHubCandidate : VersionCandidate :=
  { source := .dockerHub, version := "1.0.0", digest := none,
    release_notes := none, published_at := none, raw_reference := none }

@[reducible] def exampleDockerHubResult : SourceCheckResult :=
  { source := .dockerHub, ok := true, error_code := none, error_message := none,
    latest := some exampleDockerHubCandidate, elapsed_ms := 100 }

@[reducible] def exampleLocalGitResult : SourceCheckResult :=
  { source := .localGit, ok := true, error_code := none, error_message := none,
    latest := some exampleLocalGitCandidate, elapsed_ms := 200 }

/-- C1 witness: with ok results from DockerHub (`1.0.0`) and LocalGit
(`1.1.0`), the LocalGit candidate is recommended in either list order. -/
theorem select_recommended_priority_witness :
    select_recommended [exampleDockerHubResult, exampleLocalGitResult] =
      some exampleLocalGitCandidate ∧
    select_recommended [exampleLocalGitResult, exampleDockerHubResult] =
      some exampleLocalGitCandidate := by
  have h := select_recommended_priority
    [exampleDockerHubResult, exampleLocalGitResult] (by decide) (by decide)
  have h1 : select_recommended [exampleDockerHubResult, exampleLocalGitResult] =
      some exampleLocalGitCandidate :=
    (h.1 exampleLocalGitCandidate).mpr
      ⟨exampleLocalGitResult, by decide, by decide, by decide, by decide⟩
  have h2 := h.2.2 [exampleLocalGitResult, exampleDockerHubResult]
    (List.Perm.swap exampleLocalGitResult exampleDockerHubResult [])
  exact ⟨h1, h2.trans h1⟩

/-! ## C8 / C9 — registry-tag filtering and selection -/

theorem char_eq_of_toNat_eq {x y : Char} (h : x.val.toNat = y.val.toNat) : x = y := by
  apply Char.ext
  cases hx : x.val
  cases hy : y.val
  exact congrArg UInt32.mk (BitVec.eq_of_toNat_eq (by simpa [UInt32.toNat, hx, hy] using h))

theorem charListCmp_self : ∀ l : List Char, charListCmp l l = .eq := by
  intro l
  induction l with
  | nil => rfl
  | cons a as ih => simp [charListCmp, ih]

theorem charListCmp_lt_asymm :
    ∀ a b : List Char, charListCmp a b = .lt → charListCmp b a = .lt → False
  | [], [] => by intro h1 _; cases h1
  | [], _ :: _ => by intro _ h2; cases h2
  | _ :: _, [] => by intro h1 _; cases h1
  | x :: xs, y :: ys => by
    intro h1 h2
    simp only [charListCmp] at h1 h2
    by_cases hxy : x.val.toNat < y.val.toNat
    · rw [if_neg (by omega), if_pos hxy] at h2
      cases h2
    · rw [if_neg hxy] at h1
      by_cases hyx : y.val.toNat < x.val.toNat
      · rw [if_pos hyx] at h1
        cases h1
      · rw [if_neg hyx] at h1
        rw [if_neg hyx, if_neg hxy] at h2
        exact charListCmp_lt_asymm xs ys h1 h2

theorem charListCmp_lt_trans (a : List Char) :
    ∀ b c, charListCmp a b = .lt → charListCmp b c = .lt → charListCmp a c = .lt := by
  induction a with
  | nil =>
    intro b c h1 h2
    cases c with
    | cons z zs => rfl
    | nil =>
      cases b with
      | nil => cases h1
      | cons y ys => cases h2
  | cons x xs ih =>
    intro b c h1 h2
    cases b with
    | nil => cases h1
    | cons y ys =>
      cases c with
      | nil => cases h2
      | cons z zs =>
        simp only [charListCmp] at h1 h2 ⊢
        by_cases hxy : x.val.toNat < y.val.toNat
        · by_cases hyz : y.val.toNat < z.val.toNat
          · rw [if_pos (by omega)]
          · rw [if_neg hyz] at h2
            by_cases hzy : z.val.toNat < y.val.toNat
            · rw [if_pos hzy] at h2
              cases h2
            · rw [if_pos (by omega)]
        · rw [if_neg hxy] at h1
          by_cases hyx : y.val.toNat < x.val.toNat
          · rw [if_pos hyx] at h1
            cases h1
          · rw [if_neg hyx] at h1
            by_cases hyz : y.val.toNat < z.val.toNat
            · rw [if_pos (by omega)]
            · rw [if_neg hyz] at h2
              by_cases hzy : z.val.toNat < y.val.toNat
              · rw [if_pos hzy] at h2
                cases h2
              · rw [if_neg hzy] at h2
                rw [if_neg (by omega), if_neg (by omega)]
                exact ih ys zs h1 h2

theorem strLt_iff {a b : String} : strLt a b = true ↔ charListCmp a.data b.data = .lt := by
  unfold strLt strCmp
  cases h : charListCmp a.data b.data <;> decide

theorem strLt_irrefl (a : String) : strLt a a = false := by
  unfold strLt strCmp
  rw [charListCmp_self]
  rfl

theorem strLt_asymm {a b : String} (h : strLt a b = true) : strLt b a = false := by
  cases hb : strLt b a
  · rfl
  · exact absurd (charListCmp_lt_asymm _ _ (strLt_iff.mp h) (strLt_iff.mp hb)) not_false

theorem strLt_step {h t x : String} (h1 : strLt h x = false) (h2 : strLt h t = true) :
    strLt t x = false := by
  cases htx : strLt t x
  · rfl
  · have hlt := charListCmp_lt_trans _ _ _ (strLt_iff.mp h2) (strLt_iff.mp htx)
    rw [strLt_iff.mpr hlt] at h1
    cases h1

theorem mem_insertByLastUpdatedDesc {l : List DockerHubTag} {t x : DockerHubTag} :
    x ∈ insertByLastUpdatedDesc l t ↔ x = t ∨ x ∈ l := by
  induction l with
  | nil => simp [insertByLastUpdatedDesc]
  | cons h rest ih =>
    simp only [insertByLastUpdatedDesc]
    by_cases hc : strLt h.last_updated t.last_updated = true
    · rw [if_pos hc]
      simp [List.mem_cons]
    · rw [if_neg hc]
      simp only [List.mem_cons, ih]
      tauto

theorem pairwise_insertByLastUpdatedDesc {l : List DockerHubTag} {t : DockerHubTag}
    (hp : l.Pairwise (fun a b => strLt a.last_updated b.last_updated = false)) :
    (insertByLastUpdatedDesc l t).Pairwise
      (fun a b => strLt a.last_updated b.last_updated = false) := by
  induction l with
  | nil => simp [insertByLastUpdatedDesc]
  | cons h rest ih =>
    rw [List.pairwise_cons] at hp
    obtain ⟨hhr, hrest⟩ := hp
    simp only [insertByLastUpdatedDesc]
    by_cases hc : strLt h.last_updated t.last_updated = true
    · rw [if_pos hc, List.pairwise_cons]
      constructor
      · intro a ha
        rcases List.mem_cons.mp ha with rfl | ha
        · exact strLt_asymm hc
        · exact strLt_step (hhr a ha) hc
      · rw [List.pairwise_cons]
        exact ⟨hhr, hrest⟩
    · rw [if_neg hc, List.pairwise_cons]
      have hcf : strLt h.last_updated t.last_updated = false := by
        cases hb : strLt h.last_updated t.last_updated
        · rfl
        · exact absurd hb hc
      constructor
      · intro a ha
        rcases mem_insertByLastUpdatedDesc.mp ha with rfl | ha
        · exact hcf
        · exact hhr a ha
      · exact ih hrest

theorem mem_foldl_insertByLastUpdatedDesc :
    ∀ (l acc : List DockerHubTag) (x : DockerHubTag),
      x ∈ l.foldl insertByLastUpdatedDesc acc ↔ x ∈ acc ∨ x ∈ l := by
  intro l
  induction l with
  | nil => simp
  | cons h rest ih =>
    intro acc x
    simp only [List.foldl_cons]
    rw [ih, mem_insertByLastUpdatedDesc]
    simp only [List.mem_cons]
    tauto

theorem pairwise_foldl_insertByLastUpdatedDesc :
    ∀ (l acc : List DockerHubTag),
      acc.Pairwise (fun a b => strLt a.last_updated b.last_updated = false) →
      (l.foldl insertByLastUpdatedDesc acc).Pairwise
        (fun a b => strLt a.last_updated b.last_updated = false) := by
  intro l
  induction l with
  | nil => exact fun acc h => h
  | cons h rest ih =>
    intro acc hacc
    simp only [List.foldl_cons]
    exact ih _ (pairwise_insertByLastUpdatedDesc hacc)

theorem mem_sortByLastUpdatedDesc {l : List DockerHubTag} {x : DockerHubTag} :
    x ∈ sortByLastUpdatedDesc l ↔ x ∈ l := by
  unfold sortByLastUpdatedDesc
  rw [mem_foldl_insertByLastUpdatedDesc]
  simp

theorem pairwise_sortByLastUpdatedDesc (l : List DockerHubTag) :
    (sortByLastUpdatedDesc l).Pairwise
      (fun a b => strLt a.last_updated b.last_updated = false) :=
  pairwise_foldl_insertByLastUpdatedDesc l [] List.Pairwise.nil

theorem sortByLastUpdatedDesc_eq_nil_iff {l : List DockerHubTag} :
    sortByLastUpdatedDesc l = [] ↔ l = [] := by
  rw [List.eq_nil_iff_forall_not_mem, List.eq_nil_iff_forall_not_mem]
  constructor
  · intro h x hx
    exact h x (mem_sortByLastUpdatedDesc.mpr hx)
  · intro h x hx
    exact h x (mem_sortByLastUpdatedDesc.mp hx)

/-- The head of the descending sort is most recent among the input tags. -/
theorem sorted_head_max {l : List DockerHubTag} {t : DockerHubTag}
    (hh : (sortByLastUpdatedDesc l).head? = some t) :
    ∀ x ∈ l, strLt t.last_updated x.last_updated = false := by
  have hp := pairwise_sortByLastUpdatedDesc l
  obtain ⟨ys, hys⟩ := List.head?_eq_some_iff.mp hh
  intro x hx
  have hx' : x ∈ sortByLastUpdatedDesc l := mem_sortByLastUpdatedDesc.mpr hx
  rw [hys] at hx' hp
  rcases List.mem_cons.mp hx' with rfl | hx'
  · exact strLt_irrefl _
  · exact (List.pairwise_cons.mp hp).1 x hx'

/-- The example inputs of the spec: tags `1.21.0`, `latest`, `1.22.0` with
ascending last-modified timestamps in array order. -/
@[reducible] def exampleCfg : DockerHubSourceConfig :=
  { ns := "library", repository := "nginx", include_prerelease := false,
    tag_regex := some "^\\d+\\.\\d+\\.\\d+$" }

@[reducible] def exampleTag121 : DockerHubTag :=
  { name := "1.21.0", last_updated := "2023-01-01T00:00:00Z", digest := none }

@[reducible] def exampleTagLatest : DockerHubTag :=
  { name := "latest", last_updated := "2023-01-02T00:00:00Z", digest := none }

@[reducible] def exampleTag122 : DockerHubTag :=
  { name := "1.22.0", last_updated := "2023-01-03T00:00:00Z", digest := none }

@[reducible] def exampleTags : List DockerHubTag :=
  [exampleTag121, exampleTagLatest, exampleTag122]

/-- C8: with a configured regex that compiles, exactly the matching tags
survive the filter (all tags survive when no regex is configured); the
selected tag is a surviving tag that no survivor strictly exceeds in
last-modified string order; selection is empty exactly when no tag
survives, in which case `fetch_latest` fails with `Parse`; and the spec's
concrete example selects `1.22.0`. -/
theorem filter_and_sort_tags_spec (compile : String → Option (String → Bool))
    (cfg : DockerHubSourceConfig) (tags : List DockerHubTag) :
    (∀ pat re, cfg.tag_regex = some pat → compile pat = some re →
      ∀ t, t ∈ tags.filter (tagPasses compile cfg) ↔ t ∈ tags ∧ re t.name = true) ∧
    (cfg.tag_regex = none → tags.filter (tagPasses compile cfg) = tags) ∧
    (∀ t, filter_and_sort_tags compile cfg tags = some t →
      t ∈ tags.filter (tagPasses compile cfg) ∧
      ∀ t' ∈ tags.filter (tagPasses compile cfg),
        strLt t.last_updated t'.last_updated = false) ∧
    (filter_and_sort_tags compile cfg tags = none ↔
      tags.filter (tagPasses compile cfg) = []) ∧
    (fetch_latest_from_tags compile cfg tags = .error (.parse "No matching tags found") ↔
      tags.filter (tagPasses compile cfg) = []) ∧
    (filter_and_sort_tags semverPatternCompile exampleCfg exampleTags =
      some exampleTag122) := by
  have hnone_iff : filter_and_sort_tags compile cfg tags = none ↔
      tags.filter (tagPasses compile cfg) = [] := by
    unfold filter_and_sort_tags
    rw [List.head?_eq_none_iff]
    exact sortByLastUpdatedDesc_eq_nil_iff
  refine ⟨?_, ?_, ?_, hnone_iff, ?_, by decide⟩
  · intro pat re hpat hre t
    rw [List.mem_filter]
    simp only [tagPasses, hpat, hre]
  · intro hpat
    rw [List.filter_eq_self]
    intro a _
    simp [tagPasses, hpat]
  · intro t ht
    unfold filter_and_sort_tags at ht
    constructor
    · have := List.head?_eq_some_iff.mp ht
      obtain ⟨ys, hys⟩ := this
      have : t ∈ sortByLastUpdatedDesc (tags.filter (tagPasses compile cfg)) := by
        rw [hys]
        exact List.mem_cons_self _ _
      exact mem_sortByLastUpdatedDesc.mp this
    · exact sorted_head_max ht
  · unfold fetch_latest_from_tags
    cases hs : filter_and_sort_tags compile cfg tags with
    | none =>
      rw [hnone_iff] at hs
      simp [hs]
    | some latest_tag =>
      constructor
      · intro h'
        cases h'
      · intro hemp
        rw [hnone_iff.mpr hemp] at hs
        cases hs

/-- C8 witness: in the concrete example, the selected tag `1.22.0` survives
the filter and no surviving tag is strictly more recent. -/
theorem filter_and_sort_tags_spec_witness :
    exampleTag122 ∈ exampleTags.filter (tagPasses semverPatternCompile exampleCfg) ∧
    ∀ t' ∈ exampleTags.filter (tagPasses semverPatternCompile exampleCfg),
      strLt exampleTag122.last_updated t'.last_updated = false :=
  (filter_and_sort_tags_spec semverPatternCompile exampleCfg exampleTags).2.2.1
    exampleTag122 (by decide)

/-- C9: when the configured tag regex fails to compile, filtering is
silently disabled — every tag passes, the result coincides with the
no-regex configuration, and for a nonempty tag list the provider selects
the most recent tag by last-modified string and reports no error. -/
theorem invalid_regex_disables_filtering (compile : String → Option (String → Bool))
    (cfg : DockerHubSourceConfig) (pat : String) (tags : List DockerHubTag)
    (hpat : cfg.tag_regex = some pat) (hbad : compile pat = none) :
    (tags.filter (tagPasses compile cfg) = tags) ∧
    (filter_and_sort_tags compile cfg tags =
      filter_and_sort_tags compile { cfg with tag_regex := none } tags) ∧
    (tags ≠ [] → ∃ t, filter_and_sort_tags compile cfg tags = some t ∧
      (∀ t' ∈ tags, strLt t.last_updated t'.last_updated = false) ∧
      fetch_latest_from_tags compile cfg tags = .ok
        { source := .dockerHub, version := t.name, digest := t.digest,
          release_notes := none, published_at := some t.last_updated,
          raw_reference := some (cfg.ns ++ "/" ++ cfg.repository ++ ":" ++ t.name) }) := by
  have hall : tags.filter (tagPasses compile cfg) = tags := by
    rw [List.filter_eq_self]
    intro a _
    simp [tagPasses, hpat, hbad]
  have hnoregex : tags.filter (tagPasses compile { cfg with tag_regex := none }) = tags := by
    rw [List.filter_eq_self]
    intro a _
    simp [tagPasses]
  have heq : filter_and_sort_tags compile cfg tags =
      filter_and_sort_tags compile { cfg with tag_regex := none } tags := by
    unfold filter_and_sort_tags
    rw [hall, hnoregex]
  refine ⟨hall, heq, ?_⟩
  intro hne
  have hsortne : sortByLastUpdatedDesc (tags.filter (tagPasses compile cfg)) ≠ [] := by
    rw [hall]
    intro h
    exact hne (sortByLastUpdatedDesc_eq_nil_iff.mp h)
  cases hs : sortByLastUpdatedDesc (tags.filter (tagPasses compile cfg)) with
  | nil => exact absurd hs hsortne
  | cons t ys =>
    have hsel : filter_and_sort_tags compile cfg tags = some t := by
      unfold filter_and_sort_tags
      rw [hs]
      rfl
    refine ⟨t, hsel, ?_, ?_⟩
    · intro t' ht'
      apply sorted_head_max (l := tags.filter (tagPasses compile cfg))
      · rw [hs]
        rfl
      · rw [hall]
        exact ht'
    · unfold fetch_latest_from_tags
      rw [hsel]

/-- C9 witness: the concrete invalid pattern `(` (not a valid regex, so the
compilation oracle yields none) lets every tag pass and selects the most
recent tag `1.22.0` without error. -/
theorem invalid_regex_disables_filtering_witness :
    (exampleTags.filter (tagPasses semverPatternCompile
      { ns := "library", repository := "nginx", include_prerelease := false,
        tag_regex := some "(" }) = exampleTags) :=
  (invalid_regex_disables_filtering semverPatternCompile
    { ns := "library", repository := "nginx", include_prerelease := false,
      tag_regex := some "(" } "(" exampleTags rfl rfl).1

/-! ## C10 — short-hash byte slice of the remote commit -/

/-- Total UTF-8 byte length of a char list (`String::len` in Rust). -/
def utf8Len (l : List Char) : Nat := (l.map Char.utf8Size).sum

theorem utf8Len_cons (c : Char) (cs : List Char) :
    utf8Len (c :: cs) = c.utf8Size + utf8Len cs := by
  simp [utf8Len]

theorem byteSlicePrefix_eq_none_of_lt :
    ∀ (l : List Char) (n : Nat), utf8Len l < n → byteSlicePrefix l n = none := by
  intro l
  induction l with
  | nil =>
    intro n h
    cases n with
    | zero => exact absurd h (by simp [utf8Len])
    | succ m => rfl
  | cons c cs ih =>
    intro n h
    cases n with
    | zero => exact absurd h (by omega)
    | succ m =>
      rw [utf8Len_cons] at h
      simp only [byteSlicePrefix]
      by_cases hc : c.utf8Size ≤ m + 1
      · rw [if_pos hc, ih (m + 1 - c.utf8Size) (by omega)]
        rfl
      · rw [if_neg hc]

theorem byteSlicePrefix_isSome_of_one :
    ∀ (l : List Char), (∀ c ∈ l, c.utf8Size = 1) →
      ∀ n, n ≤ l.length → ∃ pre, byteSlicePrefix l n = some pre := by
  intro l
  induction l with
  | nil =>
    intro _ n hn
    cases n with
    | zero => exact ⟨[], rfl⟩
    | succ m => simp at hn
  | cons c cs ih =>
    intro hone n hn
    cases n with
    | zero => exact ⟨[], rfl⟩
    | succ m =>
      have hc1 : c.utf8Size = 1 := hone c (List.mem_cons_self _ _)
      simp only [byteSlicePrefix]
      rw [if_pos (by omega)]
      have hm : m + 1 - c.utf8Size = m := by omega
      rw [hm]
      obtain ⟨pre, hpre⟩ := ih (fun d hd => hone d (List.mem_cons_of_mem _ hd)) m
        (by simpa using hn)
      rw [hpre]
      exact ⟨c :: pre, rfl⟩

/-- ASCII hexadecimal digit (0-9, a-f, A-F), stated on the code point. -/
def isHexChar (c : Char) : Bool :=
  (48 ≤ c.val.toNat && c.val.toNat ≤ 57) || (97 ≤ c.val.toNat && c.val.toNat ≤ 102) ||
    (65 ≤ c.val.toNat && c.val.toNat ≤ 70)

theorem utf8Size_eq_one_of_isHexChar {c : Char} (h : isHexChar c = true) :
    c.utf8Size = 1 := by
  have hlt : c.val.toNat < 128 := by
    unfold isHexChar at h
    simp only [Bool.or_eq_true, Bool.and_eq_true, decide_eq_true_eq] at h
    omega
  unfold Char.utf8Size
  have h127 : c.val ≤ UInt32.ofNatCore 127 Char.utf8Size.proof_1 := by
    rw [UInt32.le_def, BitVec.le_def]
    have h1 : (UInt32.ofNatCore 127 Char.utf8Size.proof_1).toBitVec.toNat = 127 := rfl
    have h2 : c.val.toBitVec.toNat = c.val.toNat := rfl
    omega
  rw [if_pos h127]

theorem git_finish_none_slice (cfg : LocalGitSourceConfig) (env : GitEnv)
    (remote version : String) (hnone : slice8 remote = none) :
    (∀ c, git_finish cfg env remote version ≠ .ok c) ∧
    (∀ n, env.commits_behind = .ok n → git_finish cfg env remote version = .panicked) := by
  unfold git_finish
  constructor
  · intro c h
    cases hcb : env.commits_behind with
    | error e =>
      rw [hcb] at h
      cases h
    | ok n =>
      rw [hcb] at h
      dsimp only at h
      rw [hnone] at h
      cases h
  · intro n hcb
    rw [hcb]
    try dsimp only
    rw [hnone]

theorem git_finish_not_panicked (cfg : LocalGitSourceConfig) (env : GitEnv)
    (remote version pre : String) (hsome : slice8 remote = some pre) :
    git_finish cfg env remote version ≠ .panicked := by
  unfold git_finish
  cases env.commits_behind with
  | error e =>
    intro h
    cases h
  | ok n =>
    try dsimp only
    rw [hsome]
    intro h
    cases h

/-- Every run of the local git provider either returns an error, panics on
the byte slice of the remote commit, or flows through `git_finish` with the
resolved remote commit. -/
theorem git_fetch_latest_cases (cfg : LocalGitSourceConfig) (env : GitEnv) :
    (∃ e, git_fetch_latest cfg env = .errored e) ∨
    (git_fetch_latest cfg env = .panicked ∧
      ∃ r, env.remote_commit = .ok r ∧ slice8 r = none) ∨
    (∃ r v, env.remote_commit = .ok r ∧
      git_fetch_latest cfg env = git_finish cfg env r v) := by
  unfold git_fetch_latest
  by_cases hp : env.path_exists = false
  · rw [if_pos hp]
    exact Or.inl ⟨_, rfl⟩
  · rw [if_neg hp]
    by_cases hg : env.git_dir_exists = false
    · rw [if_pos hg]
      exact Or.inl ⟨_, rfl⟩
    · rw [if_neg hg]
      cases hf : env.fetch with
      | error e => exact Or.inl ⟨e, rfl⟩
      | ok u =>
        try dsimp only
        cases hh : env.head_commit with
        | error e => exact Or.inl ⟨e, rfl⟩
        | ok lc =>
          try dsimp only
          cases hr : env.remote_commit with
          | error e => exact Or.inl ⟨e, rfl⟩
          | ok rc =>
            try dsimp only
            cases hv : read_version_from_file cfg env with
            | error e => exact Or.inl ⟨e, rfl⟩
            | ok fv =>
              try dsimp only
              cases fv with
              | some v => exact Or.inr (Or.inr ⟨rc, v, rfl, rfl⟩)
              | none =>
                try dsimp only
                cases ht : env.latest_tag with
                | error e => exact Or.inl ⟨e, rfl⟩
                | ok tg =>
                  try dsimp only
                  cases tg with
                  | some t => exact Or.inr (Or.inr ⟨rc, t, rfl, rfl⟩)
                  | none =>
                    try dsimp only
                    cases hs : slice8 rc with
                    | none => exact Or.inr (Or.inl ⟨rfl, rc, rfl, hs⟩)
                    | some short => exact Or.inr (Or.inr ⟨rc, short, rfl, rfl⟩)

/-- All oracle outcomes the provider consults succeed. -/
def git_env_ok (cfg : LocalGitSourceConfig) (env : GitEnv) : Prop :=
  env.path_exists = true ∧ env.git_dir_exists = true ∧ env.fetch = .ok () ∧
    (∃ s, env.head_commit = .ok s) ∧
    (∃ v, read_version_from_file cfg env = .ok v) ∧
    (∃ t, env.latest_tag = .ok t) ∧
    (∃ n, env.commits_behind = .ok n)

/-- C10: the short hash is taken by byte-slicing `remote_commit[..8]`; when
the `git rev-parse` output holds fewer than 8 bytes the provider panics
(never returns a candidate, and panics outright when every other step
succeeds), while a full 40-character hexadecimal hash makes the panic branch
unreachable. -/
theorem git_short_hash_slice (cfg : LocalGitSourceConfig) (env : GitEnv)
    (remote : String) (hrem : env.remote_commit = .ok remote) :
    (utf8Len remote.data < 8 →
      (∀ c, git_fetch_latest cfg env ≠ .ok c) ∧
      (git_env_ok cfg env → git_fetch_latest cfg env = .panicked)) ∧
    (remote.data.length = 40 → (∀ ch ∈ remote.data, isHexChar ch = true) →
      git_fetch_latest cfg env ≠ .panicked) := by
  constructor
  · intro hlt
    have hnone : slice8 remote = none := by
      unfold slice8
      rw [byteSlicePrefix_eq_none_of_lt _ _ hlt]
      rfl
    constructor
    · intro c hc
      rcases git_fetch_latest_cases cfg env with ⟨e, he⟩ | ⟨hpan, _⟩ | ⟨r, v, hr, hfin⟩
      · rw [he] at hc
        cases hc
      · rw [hpan] at hc
        cases hc
      · rw [hrem] at hr
        injection hr with hr
        subst hr
        rw [hfin] at hc
        exact (git_finish_none_slice cfg env remote v hnone).1 c hc
    · rintro ⟨hpex, hgex, hfet, ⟨lc, hhead⟩, ⟨v, hread⟩, ⟨t, htag⟩, ⟨n, hcb⟩⟩
      unfold git_fetch_latest
      rw [if_neg (by simp [hpex]), if_neg (by simp [hgex]), hfet]
      try dsimp only
      rw [hhead]
      try dsimp only
      rw [hrem]
      try dsimp only
      rw [hread]
      try dsimp only
      cases v with
      | some ver => exact (git_finish_none_slice cfg env remote ver hnone).2 n hcb
      | none =>
        try dsimp only
        rw [htag]
        try dsimp only
        cases t with
        | some tv => exact (git_finish_none_slice cfg env remote tv hnone).2 n hcb
        | none =>
          try dsimp only
          rw [hnone]
  · intro hlen hhex
    have h1 : ∀ ch ∈ remote.data, ch.utf8Size = 1 :=
      fun ch hch => utf8Size_eq_one_of_isHexChar (hhex ch hch)
    obtain ⟨pre, hpre⟩ := byteSlicePrefix_isSome_of_one remote.data h1 8
      (by rw [hlen]; omega)
    have hsome : slice8 remote = some (String.mk pre) := by
      unfold slice8
      rw [hpre]
      rfl
    intro hpan
    rcases git_fetch_latest_cases cfg env with ⟨e, he⟩ | ⟨hpan', r, hr, hs⟩ | ⟨r, v, hr, hfin⟩
    · rw [he] at hpan
      cases hpan
    · rw [hrem] at hr
      injection hr with hr
      subst hr
      rw [hsome] at hs
      cases hs
    · rw [hrem] at hr
      injection hr with hr
      subst hr
      rw [hfin] at hpan
      exact git_finish_not_panicked cfg env remote v (String.mk pre) hsome hpan

/-- Concrete environments for the witness: all git invocations succeed, no
version file, no tags, once with a 3-byte rev-parse output and once with a
full 40-character hexadecimal hash. -/
@[reducible] def sampleGitCfg : LocalGitSourceConfig :=
  { repo_path := "/srv/app", branch := "main", version_file := none }

@[reducible] def shortCommitEnv : GitEnv :=
  { path_exists := true, git_dir_exists := true, fetch := .ok (),
    head_commit := .ok "abc", remote_commit := .ok "abc",
    version_file_read := .ok none, latest_tag := .ok none,
    commits_behind := .ok 0, commit_message := .ok "subject" }

@[reducible] def fullCommitEnv : GitEnv :=
  { path_exists := true, git_dir_exists := true, fetch := .ok (),
    head_commit := .ok "0123456789abcdef0123456789abcdef01234567",
    remote_commit := .ok "0123456789abcdef0123456789abcdef01234567",
    version_file_read := .ok none, latest_tag := .ok none,
    commits_behind := .ok 0, commit_message := .ok "subject" }

/-- C10 witness: a 3-byte rev-parse output panics even though every git
step succeeded; the 40-character hexadecimal hash never panics. -/
theorem git_short_hash_slice_witness :
    git_fetch_latest sampleGitCfg shortCommitEnv = .panicked ∧
    git_fetch_latest sampleGitCfg fullCommitEnv ≠ .panicked :=
  ⟨((git_short_hash_slice sampleGitCfg shortCommitEnv "abc" rfl).1 (by decide)).2
      ⟨rfl, rfl, rfl, ⟨"abc", rfl⟩, ⟨none, rfl⟩, ⟨none, rfl⟩, ⟨0, rfl⟩⟩,
   (git_short_hash_slice sampleGitCfg fullCommitEnv
      "0123456789abcdef0123456789abcdef01234567" rfl).2 (by decide) (by decide)⟩

/-! ## C6 / C7 — update pipeline step logs and rollback -/

/-- The five pipeline steps in execution order. -/
def canonical_steps : List String :=
  ["git_pull", "docker_build", "backup_container", "docker_run", "health_check"]

/-- Step names logged from the run phase onward: none when the `docker run`
spawn itself fails (the pipeline rolls back without logging the step), the
run entry when it exits, plus the health-check entry when the run exits
successfully. -/
def run_phase_steps (o : UpdateOracle) : List String :=
  match o.run with
  | .spawnErr _ => []
  | .exited ok _ _ _ => "docker_run" :: (if ok then ["health_check"] else [])

/-- Spec-side: the step names a response's log carries, in execution order
(meaningful for the oracle/world combinations in which `execute` produces a
response; process-spawn failures of pull, build, or the backup rename yield
a hard error and no response). -/
def expected_step_names (o : UpdateOracle) (w : World) (container backup : String) :
    List String :=
  match o.pull with
  | .spawnErr _ => []
  | .exit pok _ _ =>
    if pok = false then ["git_pull"]
    else
      match o.build with
      | .spawnErr _ => []
      | .exit bok _ _ =>
        if bok = false then ["git_pull", "docker_build"]
        else
          match o.inspectSpawn with
          | some _ => ["git_pull", "docker_build", "backup_container"]
          | none =>
            if w.has container = false then
              ["git_pull", "docker_build", "backup_container"] ++ run_phase_steps o
            else
              match o.renameSpawn with
              | some _ => []
              | none =>
                if (renameCmd w container backup).1 = false then
                  ["git_pull", "docker_build", "backup_container"]
                else
                  ["git_pull", "docker_build", "backup_container"] ++ run_phase_steps o

/-- The run step failed (nonzero exit or spawn failure). -/
def runFails : RunOutcome → Prop
  | .spawnErr _ => True
  | .exited ok _ _ _ => ok = false

theorem expected_step_names_cases (o : UpdateOracle) (w : World)
    (container backup : String) :
    expected_step_names o w container backup ∈
      [([] : List String), ["git_pull"], ["git_pull", "docker_build"],
       ["git_pull", "docker_build", "backup_container"],
       ["git_pull", "docker_build", "backup_container", "docker_run"],
       canonical_steps] := by
  unfold expected_step_names run_phase_steps
  repeat' split
  all_goals decide

theorem expected_step_names_canonical_init (o : UpdateOracle) (w : World)
    (container backup : String) :
    (expected_step_names o w container backup).IsPrefix canonical_steps := by
  have h := expected_step_names_cases o w container backup
  simp only [List.mem_cons, List.not_mem_nil, or_false] at h
  rcases h with h | h | h | h | h | h <;> rw [h] <;> decide

theorem expected_step_names_nodup (o : UpdateOracle) (w : World)
    (container backup : String) :
    (expected_step_names o w container backup).Nodup :=
  List.Nodup.sublist (expected_step_names_canonical_init o w container backup).sublist
    (by decide)

theorem backup_name_ne (c op : String) : backup_name c op ≠ c := by
  intro h
  have hlen := congrArg String.length h
  rw [backup_name, String.length_append, String.length_append] at hlen
  have h8 : ("-backup-" : String).length = 8 := by decide
  rw [h8] at hlen
  omega

theorem World.has_iff_mem {w : World} {n : String} : w.has n = true ↔ n ∈ w := by
  unfold World.has
  exact List.elem_iff

theorem World.has_removeC_false {w : World} {c b : String} (h : w.has b = false) :
    (w.removeC c).has b = false := by
  cases hb : (w.removeC c).has b with
  | false => rfl
  | true =>
    have hmem : b ∈ w.removeC c := World.has_iff_mem.mp hb
    have : b ∈ w := List.mem_of_mem_filter hmem
    rw [World.has_iff_mem.mpr this] at h
    cases h

theorem World.has_addC_false {w : World} {c b : String} (h : w.has b = false)
    (hne : b ≠ c) : (w.addC c).has b = false := by
  cases hb : (w.addC c).has b with
  | false => rfl
  | true =>
    have hmem : b ∈ w.addC c := World.has_iff_mem.mp hb
    rcases List.mem_cons.mp hmem with h' | h'
    · exact absurd h' hne
    · rw [World.has_iff_mem.mpr h'] at h
      cases h

/-- Rollback always reports itself attempted. -/
theorem rollback_attempted (c b : String) (sf : Bool) (w : World) :
    (rollback c b sf w).1.attempted = true := by
  unfold rollback
  cases hrc : renameCmd (w.removeC c) b c with
  | mk rok w2 =>
    cases rok with
    | true =>
      dsimp only
      by_cases hs : (w2.has c && !sf) = true
      · rw [if_pos hs]
      · rw [if_neg hs]
    | false => rfl

/-- With no backup container in the world, rollback cannot restore and
never issues a start command. -/
theorem rollback_no_backup (c b : String) (sf : Bool) (w : World)
    (hb : w.has b = false) :
    (rollback c b sf w).1.restored = false ∧
    ∀ n, DockerCmd.start n ∉ (rollback c b sf w).2.2 := by
  unfold rollback
  have hb1 : (w.removeC c).has b = false := World.has_removeC_false hb
  have hrc : renameCmd (w.removeC c) b c = (false, w.removeC c) := by
    unfold renameCmd
    rw [if_neg]
    intro hcond
    rw [Bool.and_eq_true] at hcond
    rw [hcond.1] at hb1
    cases hb1
  rw [hrc]
  refine ⟨rfl, ?_⟩
  intro n hn
  rcases List.mem_cons.mp hn with h' | h'
  · cases h'
  · rcases List.mem_cons.mp h' with h'' | h''
    · cases h''
    · cases h''

/-- The start sub-step only runs after the rename of the backup succeeds. -/
theorem rollback_start_after_rename (c b : String) (sf : Bool) (w : World)
    (n : String) (hn : DockerCmd.start n ∈ (rollback c b sf w).2.2) :
    (renameCmd (w.removeC c) b c).1 = true := by
  unfold rollback at hn
  cases hrc : renameCmd (w.removeC c) b c with
  | mk rok w2 =>
    rw [hrc] at hn
    cases rok with
    | true => rfl
    | false =>
      dsimp only at hn
      rcases List.mem_cons.mp hn with h' | h'
      · cases h'
      · rcases List.mem_cons.mp h' with h'' | h''
        · cases h''
        · cases h''

/-- Behaviour of the run/health/rollback phase: it appends exactly the
`run_phase_steps` log entries, reports rollback attempted whenever the run
step fails, and with no backup container in the world any attempted
rollback is unrestored and issues no start command beyond the incoming
trace. -/
theorem run_phase_spec (workflow : UpdateWorkflowConfig) (timeouts : UpdateTimeoutConfig)
    (container backup : String) (o : UpdateOracle) (logs : List UpdateStepLog)
    (w : World) (tr : List DockerCmd) (logs' : List UpdateStepLog) (rb : RollbackResult)
    (w' : World) (tr' : List DockerCmd)
    (hc : container = extract_container_name workflow.run_args)
    (h : run_phase workflow timeouts container backup o logs w tr =
      (.ok (logs', rb), w', tr')) :
    (logs'.map (fun l => l.step) = logs.map (fun l => l.step) ++ run_phase_steps o) ∧
    (runFails o.run → rb.attempted = true) ∧
    (w.has backup = false → backup ≠ container →
      (rb.attempted = true → rb.restored = false) ∧
      (∀ n, DockerCmd.start n ∈ tr' → DockerCmd.start n ∈ tr)) := by
  subst hc
  cases hrun : o.run with
  | spawnErr m =>
    unfold run_phase docker_run_step at h
    rw [hrun] at h
    dsimp only at h
    rcases hro : rollback (extract_container_name workflow.run_args) backup o.startFails w with ⟨rb5, w5, tr5⟩
    rw [hro] at h
    dsimp only at h
    injection h with h1 h23
    injection h23 with h2 h3
    injection h1 with h1
    injection h1 with hlogs hrb
    subst hlogs hrb h2 h3
    refine ⟨by simp [run_phase_steps, hrun], fun _ => ?_, fun hb hbc => ⟨fun _ => ?_, ?_⟩⟩
    · have := rollback_attempted (extract_container_name workflow.run_args) backup o.startFails w
      rw [hro] at this
      exact this
    · have := (rollback_no_backup (extract_container_name workflow.run_args) backup o.startFails w hb).1
      rw [hro] at this
      exact this
    · intro n hn
      rcases List.mem_append.mp hn with hn' | hn'
      · rcases List.mem_append.mp hn' with hn'' | hn''
        · exact hn''
        · rcases List.mem_cons.mp hn'' with heq | heq
          · cases heq
          · cases heq
      · have hnot := (rollback_no_backup (extract_container_name workflow.run_args) backup o.startFails w hb).2 n
        rw [hro] at hnot
        exact absurd hn' hnot
  | exited ok created so se =>
    unfold run_phase docker_run_step at h
    rw [hrun] at h
    dsimp only at h
    cases ok with
    | false =>
      rw [if_pos rfl] at h
      dsimp only at h
      rw [if_pos rfl] at h
      rcases hro : rollback (extract_container_name workflow.run_args) backup o.startFails
        (if (false || created) = true then w.addC (extract_container_name workflow.run_args) else w) with ⟨rb5, w5, tr5⟩
      rw [hro] at h
      dsimp only at h
      injection h with h1 h23
      injection h23 with h2 h3
      injection h1 with h1
      injection h1 with hlogs hrb
      subst hlogs hrb h2 h3
      have hwb : (if (false || created) = true then w.addC (extract_container_name workflow.run_args) else w).has backup =
          false → backup ≠ (extract_container_name workflow.run_args) →
          (rb5.restored = false ∧ ∀ n, DockerCmd.start n ∉ tr5) := by
        intro hb hbc
        have h1' := rollback_no_backup (extract_container_name workflow.run_args) backup o.startFails _ hb
        rw [hro] at h1'
        exact h1'
      refine ⟨by simp [run_phase_steps, hrun], fun _ => ?_, fun hb hbc => ?_⟩
      · have := rollback_attempted (extract_container_name workflow.run_args) backup o.startFails
          (if (false || created) = true then w.addC (extract_container_name workflow.run_args) else w)
        rw [hro] at this
        exact this
      · have hb' : (if (false || created) = true then w.addC (extract_container_name workflow.run_args) else w).has backup =
            false := by
          cases created with
          | false => simpa using hb
          | true =>
            simp only [Bool.false_or, if_pos rfl]
            exact World.has_addC_false hb hbc
        obtain ⟨hres, hnostart⟩ := hwb hb' hbc
        refine ⟨fun _ => hres, ?_⟩
        intro n hn
        rcases List.mem_append.mp hn with hn' | hn'
        · rcases List.mem_append.mp hn' with hn'' | hn''
          · exact hn''
          · rcases List.mem_cons.mp hn'' with heq | heq
            · cases heq
            · cases heq
        · exact absurd hn' (hnostart n)
    | true =>
      rw [if_neg (by decide : ¬((true : Bool) = false))] at h
      dsimp only at h
      rw [if_neg (by decide : ¬((true : Bool) = false))] at h
      cases hhl : o.healthy with
      | true =>
        rw [hhl, if_pos rfl] at h
        injection h with h1 h23
        injection h23 with h2 h3
        injection h1 with h1
        injection h1 with hlogs hrb
        subst hlogs hrb h2 h3
        refine ⟨by simp [run_phase_steps, hrun, health_ok_log], fun hf => ?_,
          fun hb hbc => ⟨fun hatt => ?_, ?_⟩⟩
        · cases hf
        · cases hatt
        · intro n hn
          rcases List.mem_append.mp hn with hn' | hn'
          · rcases List.mem_append.mp hn' with hn'' | hn''
            · exact hn''
            · rcases List.mem_cons.mp hn'' with heq | heq
              · cases heq
              · cases heq
          · rcases List.mem_cons.mp hn' with heq | heq
            · cases heq
            · rcases List.mem_cons.mp heq with heq' | heq'
              · cases heq'
              · cases heq'
      | false =>
        rw [hhl, if_neg (by decide : ¬((false : Bool) = true))] at h
        rcases hro : rollback (extract_container_name workflow.run_args) backup o.startFails
          (if (true || created) = true then w.addC (extract_container_name workflow.run_args) else w) with ⟨rb5, w5, tr5⟩
        rw [hro] at h
        dsimp only at h
        injection h with h1 h23
        injection h23 with h2 h3
        injection h1 with h1
        injection h1 with hlogs hrb
        subst hlogs hrb h2 h3
        refine ⟨by simp [run_phase_steps, hrun, health_fail_log], fun hf => ?_,
          fun hb hbc => ?_⟩
        · cases hf
        · have hb' : (if (true || created) = true then w.addC (extract_container_name workflow.run_args) else w).has backup =
              false := by
            simp only [Bool.true_or, if_pos rfl]
            exact World.has_addC_false hb hbc
          have h1' := rollback_no_backup (extract_container_name workflow.run_args) backup o.startFails _ hb'
          rw [hro] at h1'
          refine ⟨fun _ => h1'.1, ?_⟩
          intro n hn
          rcases List.mem_append.mp hn with hn' | hn'
          · rcases List.mem_append.mp hn' with hn'' | hn''
            · rcases List.mem_append.mp hn'' with hn3 | hn3
              · exact hn3
              · rcases List.mem_cons.mp hn3 with heq | heq
                · cases heq
                · cases heq
            · rcases List.mem_cons.mp hn'' with heq | heq
              · cases heq
              · cases heq
          · exact absurd hn' (h1'.2 n)

/-- Behaviour of `execute` for every run that produces a response: the log
step names are exactly `expected_step_names` (in execution order), a failed
run step forces `rollback.attempted`, and with no pre-existing container
and a fresh backup name any attempted rollback is unrestored and no start
command is ever issued. -/
theorem execute_spec (workflow : UpdateWorkflowConfig) (timeouts : UpdateTimeoutConfig)
    (op : String) (o : UpdateOracle) (w : World)
    (logs : List UpdateStepLog) (rb : RollbackResult) (w' : World) (tr : List DockerCmd)
    (h : execute workflow timeouts op o w = (.ok (logs, rb), w', tr)) :
    (logs.map (fun l => l.step) = expected_step_names o w
      (extract_container_name workflow.run_args)
      (backup_name (extract_container_name workflow.run_args) op)) ∧
    (runFails o.run → DockerCmd.dockerRun ∈ tr → rb.attempted = true) ∧
    (w.has (extract_container_name workflow.run_args) = false →
      w.has (backup_name (extract_container_name workflow.run_args) op) = false →
      (rb.attempted = true → rb.restored = false) ∧ ∀ n, DockerCmd.start n ∉ tr) := by
  have hbc : backup_name (extract_container_name workflow.run_args) op ≠
      extract_container_name workflow.run_args := backup_name_ne _ _
  cases hpull : o.pull with
  | spawnErr m =>
    simp [execute, git_pull_step, hpull] at h
  | exit pok pso pse =>
    cases pok with
    | false =>
      have hexec : execute workflow timeouts op o w =
          (.ok ([{ step := "git_pull",
                   command := some ("git -C " ++ workflow.git_pull_path ++
                     " pull --ff-only origin " ++ workflow.git_branch),
                   ok := false, skipped := false, output := pso ++ "\n" ++ pse,
                   error := some (pso ++ "\n" ++ pse), elapsed_ms := 0 }],
            rollbackDefault), w, [DockerCmd.gitPull]) := by
        simp [execute, git_pull_step, hpull]
      rw [hexec] at h
      injection h with h1 h23
      injection h23 with h2 h3
      injection h1 with h1
      injection h1 with hlogs hrb
      subst hlogs hrb h2 h3
      refine ⟨by simp [expected_step_names, hpull], fun _ hmem => ?_, fun _ _ => ?_⟩
      · rcases List.mem_cons.mp hmem with heq | heq
        · cases heq
        · cases heq
      · refine ⟨fun hatt => by simp [rollbackDefault] at hatt, ?_⟩
        intro n hn
        rcases List.mem_cons.mp hn with heq | heq
        · cases heq
        · cases heq
    | true =>
      cases hbuild : o.build with
      | spawnErr m =>
        simp [execute, git_pull_step, docker_build_step, hpull, hbuild] at h
      | exit bok bso bse =>
        cases bok with
        | false =>
          have hexec : execute workflow timeouts op o w =
              (.ok ([{ step := "git_pull",
                       command := some ("git -C " ++ workflow.git_pull_path ++
                         " pull --ff-only origin " ++ workflow.git_branch),
                       ok := true, skipped := false, output := pso ++ "\n" ++ pse,
                       error := none, elapsed_ms := 0 },
                     { step := "docker_build",
                       command := some ("docker build -t " ++ workflow.new_image_tag ++
                         " -f " ++ workflow.dockerfile ++ " " ++ workflow.build_context),
                       ok := false, skipped := false, output := bso ++ "\n" ++ bse,
                       error := some (bso ++ "\n" ++ bse), elapsed_ms := 0 }],
                rollbackDefault), w, [DockerCmd.gitPull, DockerCmd.dockerBuild]) := by
            simp [execute, git_pull_step, docker_build_step, hpull, hbuild]
          rw [hexec] at h
          injection h with h1 h23
          injection h23 with h2 h3
          injection h1 with h1
          injection h1 with hlogs hrb
          subst hlogs hrb h2 h3
          refine ⟨by simp [expected_step_names, hpull, hbuild], fun _ hmem => ?_,
            fun _ _ => ?_⟩
          · rcases List.mem_cons.mp hmem with heq | heq
            · cases heq
            · rcases List.mem_cons.mp heq with heq' | heq'
              · cases heq'
              · cases heq'
          · refine ⟨fun hatt => by simp [rollbackDefault] at hatt, ?_⟩
            intro n hn
            rcases List.mem_cons.mp hn with heq | heq
            · cases heq
            · rcases List.mem_cons.mp heq with heq' | heq'
              · cases heq'
              · cases heq'
        | true =>
          cases his : o.inspectSpawn with
          | some msg =>
            have hexec : execute workflow timeouts op o w =
                (.ok ([{ step := "git_pull",
                         command := some ("git -C " ++ workflow.git_pull_path ++
                           " pull --ff-only origin " ++ workflow.git_branch),
                         ok := true, skipped := false, output := pso ++ "\n" ++ pse,
                         error := none, elapsed_ms := 0 },
                       { step := "docker_build",
                         command := some ("docker build -t " ++ workflow.new_image_tag ++
                           " -f " ++ workflow.dockerfile ++ " " ++ workflow.build_context),
                         ok := true, skipped := false, output := bso ++ "\n" ++ bse,
                         error := none, elapsed_ms := 0 },
                       { step := "backup_container",
                         command := some ("docker inspect " ++
                           extract_container_name workflow.run_args),
                         ok := false, skipped := false, output := "",
                         error := some ("Failed to check container: " ++ msg),
                         elapsed_ms := 0 }],
                  rollbackDefault), w,
                 [DockerCmd.gitPull, DockerCmd.dockerBuild,
                  DockerCmd.inspect (extract_container_name workflow.run_args)]) := by
              simp [execute, git_pull_step, docker_build_step, backup_container,
                hpull, hbuild, his]
            rw [hexec] at h
            injection h with h1 h23
            injection h23 with h2 h3
            injection h1 with h1
            injection h1 with hlogs hrb
            subst hlogs hrb h2 h3
            refine ⟨by simp [expected_step_names, hpull, hbuild, his], fun _ hmem => ?_,
              fun _ _ => ?_⟩
            · rcases List.mem_cons.mp hmem with heq | heq
              · cases heq
              · rcases List.mem_cons.mp heq with heq' | heq'
                · cases heq'
                · rcases List.mem_cons.mp heq' with heq'' | heq''
                  · cases heq''
                  · cases heq''
            · refine ⟨fun hatt => by simp [rollbackDefault] at hatt, ?_⟩
              intro n hn
              rcases List.mem_cons.mp hn with heq | heq
              · cases heq
              · rcases List.mem_cons.mp heq with heq' | heq'
                · cases heq'
                · rcases List.mem_cons.mp heq' with heq'' | heq''
                  · cases heq''
                  · cases heq''
          | none =>
            cases hwc : World.has w (extract_container_name workflow.run_args) with
            | false =>
              have hrp : execute workflow timeouts op o w =
                  run_phase workflow timeouts (extract_container_name workflow.run_args)
                    (backup_name (extract_container_name workflow.run_args) op) o
                    [{ step := "git_pull",
                       command := some ("git -C " ++ workflow.git_pull_path ++
                         " pull --ff-only origin " ++ workflow.git_branch),
                       ok := true, skipped := false, output := pso ++ "\n" ++ pse,
                       error := none, elapsed_ms := 0 },
                     { step := "docker_build",
                       command := some ("docker build -t " ++ workflow.new_image_tag ++
                         " -f " ++ workflow.dockerfile ++ " " ++ workflow.build_context),
                       ok := true, skipped := false, output := bso ++ "\n" ++ bse,
                       error := none, elapsed_ms := 0 },
                     { step := "backup_container",
                       command := some ("docker inspect " ++
                         extract_container_name workflow.run_args),
                       ok := true, skipped := true,
                       output := "Container does not exist, skipping backup",
                       error := none, elapsed_ms := 0 }] w
                    [DockerCmd.gitPull, DockerCmd.dockerBuild,
                     DockerCmd.inspect (extract_container_name workflow.run_args)] := by
                simp [execute, git_pull_step, docker_build_step, backup_container,
                  hpull, hbuild, his, hwc]
              rw [hrp] at h
              obtain ⟨hmap, hatt, hnb⟩ := run_phase_spec workflow timeouts _ _ o _ w _
                logs rb w' tr rfl h
              refine ⟨?_, fun hf _ => hatt hf, fun _ hb => ?_⟩
              · rw [hmap]
                simp [expected_step_names, hpull, hbuild, his, hwc]
              · obtain ⟨hres, hstart⟩ := hnb hb hbc
                refine ⟨hres, ?_⟩
                intro n hn
                have hmem := hstart n hn
                rcases List.mem_cons.mp hmem with heq | heq
                · cases heq
                · rcases List.mem_cons.mp heq with heq' | heq'
                  · cases heq'
                  · rcases List.mem_cons.mp heq' with heq'' | heq''
                    · cases heq''
                    · cases heq''
            | true =>
              cases hrs : o.renameSpawn with
              | some msg =>
                simp [execute, git_pull_step, docker_build_step, backup_container,
                  hpull, hbuild, his, hwc, hrs] at h
              | none =>
                cases hrc : renameCmd w (extract_container_name workflow.run_args)
                    (backup_name (extract_container_name workflow.run_args) op) with
                | mk rok w2 =>
                  cases rok with
                  | false =>
                    have hexec : execute workflow timeouts op o w =
                        (.ok ([{ step := "git_pull",
                                 command := some ("git -C " ++ workflow.git_pull_path ++
                                   " pull --ff-only origin " ++ workflow.git_branch),
                                 ok := true, skipped := false,
                                 output := pso ++ "\n" ++ pse,
                                 error := none, elapsed_ms := 0 },
                               { step := "docker_build",
                                 command := some ("docker build -t " ++
                                   workflow.new_image_tag ++ " -f " ++
                                   workflow.dockerfile ++ " " ++ workflow.build_context),
                                 ok := true, skipped := false,
                                 output := bso ++ "\n" ++ bse,
                                 error := none, elapsed_ms := 0 },
                               { step := "backup_container",
                                 command := some ("docker rename " ++
                                   extract_container_name workflow.run_args ++ " " ++
                                   backup_name (extract_container_name workflow.run_args)
                                     op),
                                 ok := false, skipped := false, output := "\n",
                                 error := some "\n", elapsed_ms := 0 }],
                          rollbackDefault), w2,
                         [DockerCmd.gitPull, DockerCmd.dockerBuild,
                          DockerCmd.inspect (extract_container_name workflow.run_args),
                          DockerCmd.rename (extract_container_name workflow.run_args)
                            (backup_name (extract_container_name workflow.run_args) op)]) := by
                      simp [execute, git_pull_step, docker_build_step, backup_container,
                        hpull, hbuild, his, hwc, hrs, hrc]
                    rw [hexec] at h
                    injection h with h1 h23
                    injection h23 with h2 h3
                    injection h1 with h1
                    injection h1 with hlogs hrb
                    subst hlogs hrb h2 h3
                    refine ⟨by simp [expected_step_names, hpull, hbuild, his, hwc, hrs, hrc],
                      fun _ hmem => ?_, fun hcf _ => ?_⟩
                    · rcases List.mem_cons.mp hmem with heq | heq
                      · cases heq
                      · rcases List.mem_cons.mp heq with heq' | heq'
                        · cases heq'
                        · rcases List.mem_cons.mp heq' with heq'' | heq''
                          · cases heq''
                          · rcases List.mem_cons.mp heq'' with heq3 | heq3
                            · cases heq3
                            · cases heq3
                    · exact Bool.noConfusion hcf
                  | true =>
                    have hrp : execute workflow timeouts op o w =
                        run_phase workflow timeouts
                          (extract_container_name workflow.run_args)
                          (backup_name (extract_container_name workflow.run_args) op) o
                          [{ step := "git_pull",
                             command := some ("git -C " ++ workflow.git_pull_path ++
                               " pull --ff-only origin " ++ workflow.git_branch),
                             ok := true, skipped := false, output := pso ++ "\n" ++ pse,
                             error := none, elapsed_ms := 0 },
                           { step := "docker_build",
                             command := some ("docker build -t " ++
                               workflow.new_image_tag ++ " -f " ++ workflow.dockerfile ++
                               " " ++ workflow.build_context),
                             ok := true, skipped := false, output := bso ++ "\n" ++ bse,
                             error := none, elapsed_ms := 0 },
                           { step := "backup_container",
                             command := some ("docker rename " ++
                               extract_container_name workflow.run_args ++ " " ++
                               backup_name (extract_container_name workflow.run_args) op),
                             ok := true, skipped := false, output := "\n",
                             error := none, elapsed_ms := 0 }] w2
                          [DockerCmd.gitPull, DockerCmd.dockerBuild,
                           DockerCmd.inspect (extract_container_name workflow.run_args),
                           DockerCmd.rename (extract_container_name workflow.run_args)
                             (backup_name (extract_container_name workflow.run_args) op)] := by
                      simp [execute, git_pull_step, docker_build_step, backup_container,
                        hpull, hbuild, his, hwc, hrs, hrc]
                    rw [hrp] at h
                    obtain ⟨hmap, hatt, hnb⟩ := run_phase_spec workflow timeouts _ _ o _
                      w2 _ logs rb w' tr rfl h
                    refine ⟨?_, fun hf _ => hatt hf, fun hcf _ => ?_⟩
                    · rw [hmap]
                      simp [expected_step_names, hpull, hbuild, his, hwc, hrs, hrc]
                    · exact Bool.noConfusion hcf
/-- C6 (amended): for every execution producing an `UpdateResponse`, the
step log names are exactly the attempted-and-logged steps in execution
order (`expected_step_names`), a prefix of the canonical pull / build /
backup / run / health-check sequence with no entry duplicated or retracted
— except that a spawn failure of the Run step triggers rollback without
appending a Run entry. -/
theorem update_pipeline_step_logs (workflow : UpdateWorkflowConfig)
    (timeouts : UpdateTimeoutConfig) (op : String) (o : UpdateOracle) (w : World)
    (logs : List UpdateStepLog) (rb : RollbackResult) (w' : World) (tr : List DockerCmd)
    (h : execute workflow timeouts op o w = (.ok (logs, rb), w', tr)) :
    logs.map (fun l => l.step) = expected_step_names o w
      (extract_container_name workflow.run_args)
      (backup_name (extract_container_name workflow.run_args) op) ∧
    (logs.map (fun l => l.step)).IsPrefix canonical_steps ∧
    (logs.map (fun l => l.step)).Nodup := by
  have hspec := execute_spec workflow timeouts op o w logs rb w' tr h
  refine ⟨hspec.1, ?_, ?_⟩
  · rw [hspec.1]
    exact expected_step_names_canonical_init o w _ _
  · rw [hspec.1]
    exact expected_step_names_nodup o w _ _

/-- Concrete pipeline inputs for the closed runs. -/
@[reducible] def cexWorkflow : UpdateWorkflowConfig :=
  { git_pull_path := "/srv/app", git_branch := "main", build_context := ".",
    dockerfile := "Dockerfile", new_image_tag := "app:new",
    run_args := ["--name", "app"], health_check_cmd := none }

@[reducible] def cexTimeouts : UpdateTimeoutConfig :=
  { git_pull_ms := 1000, docker_build_ms := 1000, docker_stop_ms := 1000,
    docker_run_ms := 1000, health_check_ms := 5000 }

@[reducible] def okOracle : UpdateOracle :=
  { pull := .exit true "" "", build := .exit true "" "", inspectSpawn := none,
    renameSpawn := none, run := .exited true true "" "", healthy := true,
    startFails := false }

@[reducible] def gitPullOkLog : UpdateStepLog :=
  { step := "git_pull", command := some "git -C /srv/app pull --ff-only origin main",
    ok := true, skipped := false, output := "\n", error := none, elapsed_ms := 0 }

@[reducible] def dockerBuildOkLog : UpdateStepLog :=
  { step := "docker_build", command := some "docker build -t app:new -f Dockerfile .",
    ok := true, skipped := false, output := "\n", error := none, elapsed_ms := 0 }

@[reducible] def backupSkipLog : UpdateStepLog :=
  { step := "backup_container", command := some "docker inspect app",
    ok := true, skipped := true,
    output := "Container does not exist, skipping backup", error := none,
    elapsed_ms := 0 }

@[reducible] def dockerRunOkLog : UpdateStepLog :=
  { step := "docker_run", command := some "docker run --name app app:new",
    ok := true, skipped := false, output := "\n", error := none, elapsed_ms := 0 }

@[reducible] def c6WitnessLogs : List UpdateStepLog :=
  [gitPullOkLog, dockerBuildOkLog, backupSkipLog, dockerRunOkLog, health_ok_log "app"]

/-- C6 witness: a fully successful run on an empty world logs exactly the
five canonical steps in order. -/
theorem update_pipeline_step_logs_witness :
    (List.map (fun l => l.step) c6WitnessLogs) = expected_step_names okOracle []
      (extract_container_name cexWorkflow.run_args)
      (backup_name (extract_container_name cexWorkflow.run_args) "op1") ∧
    (List.map (fun l => l.step) c6WitnessLogs).IsPrefix canonical_steps :=
  have h := update_pipeline_step_logs cexWorkflow cexTimeouts "op1" okOracle []
    c6WitnessLogs rollbackDefault ["app"]
    [DockerCmd.gitPull, DockerCmd.dockerBuild, DockerCmd.inspect "app",
     DockerCmd.dockerRun, DockerCmd.inspect "app", DockerCmd.rm "app-backup-op1"]
    rfl
  ⟨h.1, h.2.1⟩

@[reducible] def runSpawnErrOracle : UpdateOracle :=
  { pull := .exit true "" "", build := .exit true "" "", inspectSpawn := none,
    renameSpawn := none, run := .spawnErr "No such file or directory",
    healthy := true, startFails := false }

@[reducible] def c6CexLogs : List UpdateStepLog :=
  [gitPullOkLog, dockerBuildOkLog, backupSkipLog]

@[reducible] def c6CexRollback : RollbackResult :=
  { attempted := true, restored := false, backup_container := some "app-backup-op1",
    error := some "Failed to restore backup container" }

/-- C6 counterexample: when the `docker run` process fails to spawn, the
pipeline still produces an `UpdateResponse` and the Run step was attempted
(the run command is in the trace), yet no `docker_run` entry is appended —
the response carries only the pull, build, and backup logs. -/
theorem update_pipeline_step_logs_counterexample :
    (execute cexWorkflow cexTimeouts "op1" runSpawnErrOracle []).1 =
      .ok (c6CexLogs, c6CexRollback) ∧
    DockerCmd.dockerRun ∈ (execute cexWorkflow cexTimeouts "op1" runSpawnErrOracle []).2.2 ∧
    "docker_run" ∉ c6CexLogs.map (fun l => l.step) :=
  ⟨rfl, by decide, by decide⟩

/-- C7: whenever the Run step fails, the response's rollback reports
`attempted = true`; when the Backup step was skipped because no container
(and no backup) pre-existed, a triggered rollback reports
`restored = false` and the pipeline never issues a `docker start`; and in
the rollback procedure itself the start sub-step runs only after the
rename of the backup succeeds. -/
theorem update_rollback_behaviour (workflow : UpdateWorkflowConfig)
    (timeouts : UpdateTimeoutConfig) (op : String) (o : UpdateOracle) (w : World)
    (logs : List UpdateStepLog) (rb : RollbackResult) (w' : World) (tr : List DockerCmd)
    (h : execute workflow timeouts op o w = (.ok (logs, rb), w', tr)) :
    (runFails o.run → DockerCmd.dockerRun ∈ tr → rb.attempted = true) ∧
    (w.has (extract_container_name workflow.run_args) = false →
      w.has (backup_name (extract_container_name workflow.run_args) op) = false →
      rb.attempted = true →
      rb.restored = false ∧ ∀ n, DockerCmd.start n ∉ tr) ∧
    (∀ (c b : String) (sf : Bool) (w₀ : World) (n : String),
      DockerCmd.start n ∈ (rollback c b sf w₀).2.2 →
      (renameCmd (w₀.removeC c) b c).1 = true) := by
  have hspec := execute_spec workflow timeouts op o w logs rb w' tr h
  refine ⟨hspec.2.1, ?_, ?_⟩
  · intro hc hb hatt
    exact ⟨(hspec.2.2 hc hb).1 hatt, (hspec.2.2 hc hb).2⟩
  · intro c b sf w₀ n hn
    exact rollback_start_after_rename c b sf w₀ n hn

@[reducible] def runFailOracle : UpdateOracle :=
  { pull := .exit true "" "", build := .exit true "" "", inspectSpawn := none,
    renameSpawn := none, run := .exited false true "" "err", healthy := true,
    startFails := false }

@[reducible] def dockerRunFailLog : UpdateStepLog :=
  { step := "docker_run", command := some "docker run --name app app:new",
    ok := false, skipped := false, output := "\nerr", error := some "\nerr",
    elapsed_ms := 0 }

@[reducible] def c7Trace : List DockerCmd :=
  [DockerCmd.gitPull, DockerCmd.dockerBuild, DockerCmd.inspect "app",
   DockerCmd.dockerRun, DockerCmd.rm "app", DockerCmd.rename "app-backup-op1" "app"]

/-- C7 witness: on an empty world (backup skipped), a failing `docker run`
yields a rollback with `attempted = true`, `restored = false`, and no
`docker start` command in the trace. -/
theorem update_rollback_behaviour_witness :
    c6CexRollback.attempted = true ∧ c6CexRollback.restored = false ∧
    DockerCmd.start "app" ∉ c7Trace :=
  have h := update_rollback_behaviour cexWorkflow cexTimeouts "op1" runFailOracle []
    [gitPullOkLog, dockerBuildOkLog, backupSkipLog, dockerRunFailLog] c6CexRollback
    [] c7Trace rfl
  ⟨h.1 rfl (by decide), ((h.2.1 rfl rfl (h.1 rfl (by decide)))).1,
   ((h.2.1 rfl rfl (h.1 rfl (by decide)))).2 "app"⟩

end DevEnvProbe
